import Mathlib

/-!
Verification of the graph_nets `modules.py` layer library.

The graph data model and the block/broadcast/aggregation primitives that
`modules.py` consumes live in `graphs.py` and `blocks.py`, which are not part
of the source tree under verification; they are modelled from the
specification (sections 3, 4.1-4.4) and marked as such in their doc comments.
Everything else is a direct shallow embedding of `modules.py`:

 * tensors of shape `[rows, ...]` become Lean lists of feature rows;
 * the feature rows of a multi-head tensor `[rows, num_heads, dim]` become
   functions `Fin H -> Fin D -> Rat`;
 * user-supplied per-entity model functions (black boxes applied row-wise)
   become Lean function parameters;
 * `tf.exp` (an external tensor-engine primitive) becomes a function
   parameter `ex : Rat -> Rat` applied elementwise.
-/

namespace GraphNets

variable {E N G E' N' G' E'' N'' G'' α β ι : Type}

/-- Modelled from the spec: the `GraphsTuple` batched-graph value type of
`graphs.py` (spec section 3).  Feature tensors become lists of feature rows;
`senders`/`receivers` index into the global concatenated node list; `n_node`
and `n_edge` give the per-graph partition of the concatenation. -/
@[ext]
structure GraphsTuple (E N G : Type) where
  nodes : List N
  edges : List E
  receivers : List ℕ
  senders : List ℕ
  globals : List G
  n_node : List ℕ
  n_edge : List ℕ

/-- Modelled from the spec: `graph.replace(nodes=...)` on a `GraphsTuple`
(immutable update, all other fields shared). -/
def GraphsTuple.replaceNodes (g : GraphsTuple E N G) (ns : List N') :
    GraphsTuple E N' G :=
  ⟨ns, g.edges, g.receivers, g.senders, g.globals, g.n_node, g.n_edge⟩

/-- Modelled from the spec: `graph.replace(edges=...)` on a `GraphsTuple`. -/
def GraphsTuple.replaceEdges (g : GraphsTuple E N G) (es : List E') :
    GraphsTuple E' N G :=
  ⟨g.nodes, es, g.receivers, g.senders, g.globals, g.n_node, g.n_edge⟩

/-- Modelled from the spec: `graph.replace(globals=...)` on a `GraphsTuple`. -/
def GraphsTuple.replaceGlobals (g : GraphsTuple E N G) (gs : List G') :
    GraphsTuple E N G' :=
  ⟨g.nodes, g.edges, g.receivers, g.senders, gs, g.n_node, g.n_edge⟩

/-- Validity invariants of a `GraphsTuple` (spec section 3): index arrays have
one entry per edge and index into the node list, and the `n_node`/`n_edge`
partition sums to the total node/edge counts, with one partition entry per
graph (i.e. per global feature row). -/
def WF (g : GraphsTuple E N G) : Prop :=
  g.receivers.length = g.edges.length ∧
  g.senders.length = g.edges.length ∧
  (∀ r ∈ g.receivers, r < g.nodes.length) ∧
  (∀ s ∈ g.senders, s < g.nodes.length) ∧
  g.n_node.sum = g.nodes.length ∧
  g.n_edge.sum = g.edges.length ∧
  g.n_node.length = g.globals.length ∧
  g.n_edge.length = g.globals.length

instance (g : GraphsTuple E N G) : Decidable (WF g) := by
  unfold WF; infer_instance

/-- Rows of `data` whose segment id equals `s`, in order: the fibre of a
segmented reduction.  Shared support for the segment sum / max / softmax
primitives below. -/
def segRows (data : List α) (ids : List ℕ) (s : ℕ) : List α :=
  ((data.zip ids).filter fun p => p.2 == s).map fun p => p.1

/-- Modelled from the spec: `tf.unsorted_segment_sum` (spec section 4.1), the
segmented sum-reduction of the external tensor engine.  Row `s` of the result
is the sum of all rows of `data` whose segment id is `s`; an empty segment
produces the zero row. -/
def unsortedSegmentSum [AddCommMonoid α] (data : List α) (ids : List ℕ)
    (k : ℕ) : List α :=
  (List.range k).map fun s => (segRows data ids s).sum

/-- Elementwise maximum of two feature rows. -/
def rowMax (f g : ι → ℚ) : ι → ℚ := fun h => max (f h) (g h)

/-- Elementwise maximum of a list of feature rows (`none` on the empty
list). -/
def rowsMax : List (ι → ℚ) → Option (ι → ℚ)
  | [] => none
  | x :: xs => some ((rowsMax xs).elim x (rowMax x))

/-- Modelled from the spec: `tf.unsorted_segment_max` (spec section 4.1), the
segmented elementwise max-reduction of the external tensor engine.  Following
the spec's design note, an empty segment is given the junk value `0`; the
softmax path below only ever reads segments that contain the reading row, so
the junk value never reaches an output. -/
def unsortedSegmentMax (data : List (ι → ℚ)) (ids : List ℕ) (k : ℕ) :
    List (ι → ℚ) :=
  (List.range k).map fun s => (rowsMax (segRows data ids s)).getD 0

/-- Embedding of `_unsorted_segment_softmax` from `modules.py`: subtract the
gathered per-segment max, exponentiate elementwise (`ex` standing for the
tensor engine's `tf.exp`), and divide by the gathered per-segment sum of
exponentials. -/
def unsortedSegmentSoftmax (ex : ℚ → ℚ) (data : List (ι → ℚ)) (ids : List ℕ)
    (k : ℕ) : List (ι → ℚ) :=
  let segmentMaxes := unsortedSegmentMax data ids k
  let maxes := ids.map fun s => segmentMaxes.getD s 0
  let shifted := List.zipWith (fun r m h => r h - m h) data maxes
  let expData := shifted.map fun r h => ex (r h)
  let segmentSumExp := unsortedSegmentSum expData ids k
  let sumExp := ids.map fun s => segmentSumExp.getD s 0
  List.zipWith (fun r m h => r h / m h) expData sumExp

/-- Modelled from the spec: `blocks.broadcast_sender_nodes_to_edges`
(spec section 4.2): row `i` of the result is `nodes[senders[i]]`. -/
def broadcastSenderNodesToEdges [Zero N] (g : GraphsTuple E N G) : List N :=
  g.senders.map fun s => g.nodes.getD s 0

/-- Modelled from the spec: `blocks.broadcast_receiver_nodes_to_edges`
(spec section 4.2): row `i` of the result is `nodes[receivers[i]]`. -/
def broadcastReceiverNodesToEdges [Zero N] (g : GraphsTuple E N G) : List N :=
  g.receivers.map fun s => g.nodes.getD s 0

/-- Modelled from the spec: `blocks.broadcast_globals_to_edges`
(spec section 4.2): repeats each graph's global feature row across the
`n_edge` edges of that graph, order-preserving. -/
def broadcastGlobalsToEdges (g : GraphsTuple E N G) : List G :=
  (g.globals.zip g.n_edge).flatMap fun p => List.replicate p.2 p.1

/-- Modelled from the spec: `blocks.broadcast_globals_to_nodes`
(spec section 4.2). -/
def broadcastGlobalsToNodes (g : GraphsTuple E N G) : List G :=
  (g.globals.zip g.n_node).flatMap fun p => List.replicate p.2 p.1

/-- Modelled from the spec: the per-row graph-index array derived from the
`n_node` (or `n_edge`) partition (spec section 4.3): graph `i` contributes
`counts[i]` copies of the id `i`, in graph order. -/
def graphIdsOf : List ℕ → List ℕ
  | [] => []
  | c :: rest => List.replicate c 0 ++ (graphIdsOf rest).map (fun x => 1 + x)

/-- Embedding of `_received_edges_normalizer` from `modules.py`: applies a
normalizer with the signature of `_unsorted_segment_softmax` to the edges,
grouped by `receivers`, with `sum(n_node)` segments. -/
def receivedEdgesNormalizer (g : GraphsTuple (ι → ℚ) N G)
    (normalizer : List (ι → ℚ) → List ℕ → ℕ → List (ι → ℚ)) :
    List (ι → ℚ) :=
  normalizer g.edges g.receivers g.n_node.sum

/-- Modelled from the spec: `blocks.ReceivedEdgesToNodesAggregator` with the
`tf.unsorted_segment_sum` reducer (spec section 4.3): segmented sum of the
edges grouped by `receivers` with `sum(n_node)` segments. -/
def receivedEdgesToNodesSum [AddCommMonoid E] (g : GraphsTuple E N G) :
    List E :=
  unsortedSegmentSum g.edges g.receivers g.n_node.sum

/-- Embedding of `SelfAttention._build` from `modules.py`.  The three node
tensors have shape `[total_nodes, num_heads, dim]`, embedded as lists of
rows `Fin H -> Fin D -> Rat`; `ex` is the tensor engine's `tf.exp`. -/
def selfAttention (ex : ℚ → ℚ)
    (nodeValues nodeKeys nodeQueries : List (Fin H → Fin D → ℚ))
    (attentionGraph : GraphsTuple E N G) :
    GraphsTuple E (Fin H → Fin D → ℚ) G :=
  let senderKeys :=
    broadcastSenderNodesToEdges (attentionGraph.replaceNodes nodeKeys)
  let senderValues :=
    broadcastSenderNodesToEdges (attentionGraph.replaceNodes nodeValues)
  let receiverQueries :=
    broadcastReceiverNodesToEdges (attentionGraph.replaceNodes nodeQueries)
  let attentionWeightsLogits : List (Fin H → ℚ) :=
    List.zipWith (fun k q h => ∑ d, k h d * q h d) senderKeys receiverQueries
  let normalizedAttentionWeights :=
    receivedEdgesNormalizer
      (attentionGraph.replaceEdges attentionWeightsLogits)
      (unsortedSegmentSoftmax ex)
  let attentedEdges :=
    List.zipWith (fun v w h d => v h d * w h) senderValues
      normalizedAttentionWeights
  let aggregatedAttendedValues :=
    receivedEdgesToNodesSum (attentionGraph.replaceEdges attentedEdges)
  attentionGraph.replaceNodes aggregatedAttendedValues

/-- Modelled from the spec: the configuration flags of `blocks.EdgeBlock`
(spec section 4.4). -/
structure EdgeBlockOpt where
  use_edges : Bool
  use_receiver_nodes : Bool
  use_sender_nodes : Bool
  use_globals : Bool
deriving DecidableEq

/-- Modelled from the spec: the configuration flags of `blocks.NodeBlock`
(spec section 4.4). -/
structure NodeBlockOpt where
  use_received_edges : Bool
  use_sent_edges : Bool
  use_nodes : Bool
  use_globals : Bool
deriving DecidableEq

/-- Modelled from the spec: the configuration flags of `blocks.GlobalBlock`
(spec section 4.4). -/
structure GlobalBlockOpt where
  use_edges : Bool
  use_nodes : Bool
  use_globals : Bool
deriving DecidableEq

/-- Modelled from the spec: the constructor defaults of `blocks.EdgeBlock`:
every `use_*` flag defaults to true. -/
def edgeBlockCtorDefaults : EdgeBlockOpt := ⟨true, true, true, true⟩

/-- Modelled from the spec: the constructor defaults of `blocks.NodeBlock`:
every `use_*` flag defaults to true. -/
def nodeBlockCtorDefaults : NodeBlockOpt := ⟨true, true, true, true⟩

/-- Modelled from the spec: the constructor defaults of `blocks.GlobalBlock`:
every `use_*` flag defaults to true. -/
def globalBlockCtorDefaults : GlobalBlockOpt := ⟨true, true, true⟩

/-- An input selected by a configuration flag: present when the flag is on,
absent when it is off (the absent case is never read by the block). -/
def optionalInput (b : Bool) (x : α) : Option α := if b then some x else none

/-- Modelled from the spec: the per-edge input of `blocks.EdgeBlock`
(spec section 4.4): the concatenation, in the fixed documented order (edges,
receiver-broadcast nodes, sender-broadcast nodes, graph-broadcast globals,
omitting any disabled term), is represented as a tuple of optional
components; the user function on the concatenation corresponds to a function
on this tuple. -/
structure EdgeIn (E N G : Type) where
  edge : Option E
  receiverNode : Option N
  senderNode : Option N
  glob : Option G

/-- Modelled from the spec: the per-node input of `blocks.NodeBlock`
(aggregated received edges, aggregated sent edges, the node's own feature,
graph-broadcast globals). -/
structure NodeIn (E N G : Type) where
  receivedEdges : Option E
  sentEdges : Option E
  node : Option N
  glob : Option G

/-- Modelled from the spec: the per-graph input of `blocks.GlobalBlock`
(aggregated edges, aggregated nodes, the graph's own global feature). -/
structure GlobalIn (E N G : Type) where
  edges : Option E
  nodes : Option N
  glob : Option G

/-- Modelled from the spec: `blocks.EdgeBlock` (spec section 4.4): build the
per-edge input selected by the flags and apply the user function row-wise,
replacing the edges and leaving every other field unchanged.  The reducer-free
block has one row per entry of `receivers`.  Disabled inputs are passed as
`none` and their underlying fields are never required. -/
def edgeBlock [Zero E] [Zero N] [Zero G] (opt : EdgeBlockOpt)
    (φe : EdgeIn E N G → E') (g : GraphsTuple E N G) : GraphsTuple E' N G :=
  let globalsToEdges := broadcastGlobalsToEdges g
  g.replaceEdges <| (List.range g.receivers.length).map fun i =>
    φe ⟨optionalInput opt.use_edges (g.edges.getD i 0),
        optionalInput opt.use_receiver_nodes
          (g.nodes.getD (g.receivers.getD i 0) 0),
        optionalInput opt.use_sender_nodes
          (g.nodes.getD (g.senders.getD i 0) 0),
        optionalInput opt.use_globals (globalsToEdges.getD i 0)⟩

/-- Modelled from the spec: `blocks.NodeBlock` (spec section 4.4) with the
default `tf.unsorted_segment_sum` reducer for both edge aggregations: build
the per-node input selected by the flags (received-edges aggregation,
sent-edges aggregation, the node's own feature, broadcast globals) and apply
the user function row-wise, replacing the nodes. -/
def nodeBlock [AddCommMonoid E] [Zero N] [Zero G] (opt : NodeBlockOpt)
    (φn : NodeIn E N G → N') (g : GraphsTuple E N G) : GraphsTuple E N' G :=
  let receivedAgg := unsortedSegmentSum g.edges g.receivers g.n_node.sum
  let sentAgg := unsortedSegmentSum g.edges g.senders g.n_node.sum
  let globalsToNodes := broadcastGlobalsToNodes g
  g.replaceNodes <| (List.range g.nodes.length).map fun i =>
    φn ⟨optionalInput opt.use_received_edges (receivedAgg.getD i 0),
        optionalInput opt.use_sent_edges (sentAgg.getD i 0),
        optionalInput opt.use_nodes (g.nodes.getD i 0),
        optionalInput opt.use_globals (globalsToNodes.getD i 0)⟩

/-- Modelled from the spec: `blocks.GlobalBlock` (spec section 4.4) with the
default `tf.unsorted_segment_sum` reducer for both aggregations: build the
per-graph input selected by the flags (edges aggregated by graph id, nodes
aggregated by graph id, the graph's own global feature) and apply the user
function row-wise, replacing the globals. -/
def globalBlock [AddCommMonoid E] [AddCommMonoid N] [Zero G]
    (opt : GlobalBlockOpt) (φg : GlobalIn E N G → G')
    (g : GraphsTuple E N G) : GraphsTuple E N G' :=
  let edgesAgg := unsortedSegmentSum g.edges (graphIdsOf g.n_edge)
    g.n_edge.length
  let nodesAgg := unsortedSegmentSum g.nodes (graphIdsOf g.n_node)
    g.n_node.length
  g.replaceGlobals <| (List.range g.globals.length).map fun i =>
    φg ⟨optionalInput opt.use_edges (edgesAgg.getD i 0),
        optionalInput opt.use_nodes (nodesAgg.getD i 0),
        optionalInput opt.use_globals (g.globals.getD i 0)⟩

/-- Embedding of `_DEFAULT_EDGE_BLOCK_OPT` from `modules.py`. -/
def DEFAULT_EDGE_BLOCK_OPT : EdgeBlockOpt := ⟨true, true, true, true⟩

/-- Embedding of `_DEFAULT_NODE_BLOCK_OPT` from `modules.py` (note that
`use_sent_edges` is `False` there). -/
def DEFAULT_NODE_BLOCK_OPT : NodeBlockOpt := ⟨true, false, true, true⟩

/-- Embedding of `_DEFAULT_GLOBAL_BLOCK_OPT` from `modules.py`. -/
def DEFAULT_GLOBAL_BLOCK_OPT : GlobalBlockOpt := ⟨true, true, true⟩

/-- A partial edge-block option dictionary: each key is either present or
absent, as in the Python `edge_block_opt` argument. -/
structure EdgeBlockOptArg where
  use_edges : Option Bool := none
  use_receiver_nodes : Option Bool := none
  use_sender_nodes : Option Bool := none
  use_globals : Option Bool := none

/-- A partial node-block option dictionary (flag keys; the reducer keys are
fixed to the default `tf.unsorted_segment_sum` in this embedding). -/
structure NodeBlockOptArg where
  use_received_edges : Option Bool := none
  use_sent_edges : Option Bool := none
  use_nodes : Option Bool := none
  use_globals : Option Bool := none

/-- A partial global-block option dictionary (flag keys; the reducer keys are
fixed to the default `tf.unsorted_segment_sum` in this embedding). -/
structure GlobalBlockOptArg where
  use_edges : Option Bool := none
  use_nodes : Option Bool := none
  use_globals : Option Bool := none

/-- Embedding of `_make_default_edge_block_opt` from `modules.py`: each key
absent from the argument dictionary is filled from
`_DEFAULT_EDGE_BLOCK_OPT`. -/
def makeDefaultEdgeBlockOpt (o : Option EdgeBlockOptArg) : EdgeBlockOpt :=
  let a := o.getD {}
  ⟨a.use_edges.getD DEFAULT_EDGE_BLOCK_OPT.use_edges,
   a.use_receiver_nodes.getD DEFAULT_EDGE_BLOCK_OPT.use_receiver_nodes,
   a.use_sender_nodes.getD DEFAULT_EDGE_BLOCK_OPT.use_sender_nodes,
   a.use_globals.getD DEFAULT_EDGE_BLOCK_OPT.use_globals⟩

/-- Embedding of `_make_default_node_block_opt` from `modules.py` (flag
keys). -/
def makeDefaultNodeBlockOpt (o : Option NodeBlockOptArg) : NodeBlockOpt :=
  let a := o.getD {}
  ⟨a.use_received_edges.getD DEFAULT_NODE_BLOCK_OPT.use_received_edges,
   a.use_sent_edges.getD DEFAULT_NODE_BLOCK_OPT.use_sent_edges,
   a.use_nodes.getD DEFAULT_NODE_BLOCK_OPT.use_nodes,
   a.use_globals.getD DEFAULT_NODE_BLOCK_OPT.use_globals⟩

/-- Embedding of `_make_default_global_block_opt` from `modules.py` (flag
keys). -/
def makeDefaultGlobalBlockOpt (o : Option GlobalBlockOptArg) :
    GlobalBlockOpt :=
  let a := o.getD {}
  ⟨a.use_edges.getD DEFAULT_GLOBAL_BLOCK_OPT.use_edges,
   a.use_nodes.getD DEFAULT_GLOBAL_BLOCK_OPT.use_nodes,
   a.use_globals.getD DEFAULT_GLOBAL_BLOCK_OPT.use_globals⟩

/-- Embedding of `GraphNetwork` from `modules.py` (constructor option
resolution followed by `_build`): EdgeBlock, then NodeBlock, then
GlobalBlock, each configured by the resolved option dictionaries. -/
def graphNetwork [Zero E] [AddCommMonoid E'] [Zero N] [AddCommMonoid N']
    [Zero G] (eo : Option EdgeBlockOptArg) (no : Option NodeBlockOptArg)
    (go : Option GlobalBlockOptArg) (φe : EdgeIn E N G → E')
    (φn : NodeIn E' N G → N') (φg : GlobalIn E' N' G → G')
    (g : GraphsTuple E N G) : GraphsTuple E' N' G' :=
  globalBlock (makeDefaultGlobalBlockOpt go) φg
    (nodeBlock (makeDefaultNodeBlockOpt no) φn
      (edgeBlock (makeDefaultEdgeBlockOpt eo) φe g))

/-- Embedding of `GraphIndependent._build` from `modules.py`: apply the three
models to the edge, node and global features independently, row-wise, with no
broadcast or aggregation. -/
def graphIndependent (φe : E → E') (φn : N → N') (φg : G → G')
    (g : GraphsTuple E N G) : GraphsTuple E' N' G' :=
  ⟨g.nodes.map φn, g.edges.map φe, g.receivers, g.senders,
   g.globals.map φg, g.n_node, g.n_edge⟩

/-- Embedding of `InteractionNetwork` from `modules.py`: an EdgeBlock with
`use_globals=False` (other flags at their constructor defaults), then a
NodeBlock with `use_sent_edges=False` and `use_globals=False` (other flags at
their constructor defaults). -/
def interactionNetwork [Zero E] [AddCommMonoid E'] [Zero N] [Zero G]
    (φe : EdgeIn E N G → E') (φn : NodeIn E' N G → N')
    (g : GraphsTuple E N G) : GraphsTuple E' N' G :=
  nodeBlock { nodeBlockCtorDefaults with
                use_sent_edges := false, use_globals := false } φn
    (edgeBlock { edgeBlockCtorDefaults with use_globals := false } φe g)

/-- Embedding of `RelationNetwork` from `modules.py`: an EdgeBlock on sender
and receiver nodes only, then a GlobalBlock on edges only; the result is the
input graph with only its globals replaced by the GlobalBlock's output. -/
def relationNetwork [Zero E] [AddCommMonoid E'] [AddCommMonoid N] [Zero G]
    (φe : EdgeIn E N G → E') (φg : GlobalIn E' N G → G')
    (g : GraphsTuple E N G) : GraphsTuple E N G' :=
  let outputGraph :=
    globalBlock { use_edges := true, use_nodes := false,
                  use_globals := false } φg
      (edgeBlock { use_edges := false, use_receiver_nodes := true,
                   use_sender_nodes := true, use_globals := false } φe g)
  g.replaceGlobals outputGraph.globals

/-- Embedding of `DeepSets` from `modules.py`: a NodeBlock on nodes and
globals only, then a GlobalBlock on nodes only. -/
def deepSets [AddCommMonoid E] [Zero N] [AddCommMonoid N'] [Zero G]
    (φn : NodeIn E N G → N') (φg : GlobalIn E N' G → G')
    (g : GraphsTuple E N G) : GraphsTuple E N' G' :=
  globalBlock { use_edges := false, use_nodes := true,
                use_globals := false } φg
    (nodeBlock { use_received_edges := false, use_sent_edges := false,
                 use_nodes := true, use_globals := true } φn g)

/-- Embedding of `CommNet` from `modules.py`: an EdgeBlock on sender nodes
only, a node-encoder NodeBlock on nodes only, then a NodeBlock on received
edges and nodes; the result is the input graph with only its nodes replaced
by the final NodeBlock's nodes. -/
def commNet [Zero E] [AddCommMonoid E'] [Zero N] [Zero N'] [Zero G]
    (φe : EdgeIn E N G → E') (φenc : NodeIn E' N G → N')
    (φn : NodeIn E' N' G → N'') (g : GraphsTuple E N G) :
    GraphsTuple E N'' G :=
  let nodeInput :=
    nodeBlock { use_received_edges := false, use_sent_edges := false,
                use_nodes := true, use_globals := false } φenc
      (edgeBlock { use_edges := false, use_receiver_nodes := false,
                   use_sender_nodes := true, use_globals := false } φe g)
  g.replaceNodes (nodeBlock { use_received_edges := true,
                              use_sent_edges := false, use_nodes := true,
                              use_globals := false } φn nodeInput).nodes

/-- Embedding of the constructor of `EdgeGAT` from `modules.py`: resolve the
edge and global block option dictionaries and assert that the edge block uses
sender nodes; on failure the module is never constructed (no graph is
processed). -/
def edgeGATInit (eo : Option EdgeBlockOptArg) (go : Option GlobalBlockOptArg) :
    Except String (EdgeBlockOpt × GlobalBlockOpt) :=
  let e := makeDefaultEdgeBlockOpt eo
  let gl := makeDefaultGlobalBlockOpt go
  if e.use_sender_nodes then Except.ok (e, gl)
  else Except.error "EdgeGAT does not make sense without using sender nodes"

/-- The batched `GraphsTuple` containing two disjoint graphs laid out
contiguously: features and partitions are concatenated and the connectivity
of the second graph is offset by the first graph's node count (spec
section 3). -/
def batchGraph (g1 g2 : GraphsTuple E N G) : GraphsTuple E N G :=
  ⟨g1.nodes ++ g2.nodes, g1.edges ++ g2.edges,
   g1.receivers ++ g2.receivers.map (fun x => g1.nodes.length + x),
   g1.senders ++ g2.senders.map (fun x => g1.nodes.length + x),
   g1.globals ++ g2.globals, g1.n_node ++ g2.n_node, g1.n_edge ++ g2.n_edge⟩

/-- Stated per the claim: an InteractionNetwork whose NodeBlock would have
only the received-edges aggregation enabled (globals disabled, sent edges
disabled, and no other inputs — in particular `use_nodes` off). -/
def interactionNetworkClaim [Zero E] [AddCommMonoid E'] [Zero N] [Zero G]
    (φe : EdgeIn E N G → E') (φn : NodeIn E' N G → N')
    (g : GraphsTuple E N G) : GraphsTuple E' N' G :=
  nodeBlock { use_received_edges := true, use_sent_edges := false,
              use_nodes := false, use_globals := false } φn
    (edgeBlock { edgeBlockCtorDefaults with use_globals := false } φe g)

/-- The connectivity and partition fields of one graph equal those of
another (the shape-preservation part of the frame conditions). -/
def connectivityUnchanged (g' : GraphsTuple E' N' G') (g : GraphsTuple E N G) :
    Prop :=
  g'.receivers = g.receivers ∧ g'.senders = g.senders ∧
  g'.n_node = g.n_node ∧ g'.n_edge = g.n_edge

/-- The intermediate `exp_data` list of `_unsorted_segment_softmax`: the data
rows minus their gathered per-segment maxima, exponentiated elementwise.
Equal (definitionally) to that intermediate in `unsortedSegmentSoftmax`, and
named so that theorems can speak about softmax entries. -/
def softmaxExpRows (ex : ℚ → ℚ) (data : List (ι → ℚ)) (ids : List ℕ)
    (k : ℕ) : List (ι → ℚ) :=
  (List.zipWith (fun r m h => r h - m h) data
    (ids.map fun s => (unsortedSegmentMax data ids k).getD s 0)).map
    fun r h => ex (r h)

/-- Stated per the claim (C1): the unnormalized attention score of edge `e`,
for head `h`: the dot product over the last axis of the sender node's key and
the receiver node's query. -/
def attnLogit {H D : ℕ} (keys queries : List (Fin H → Fin D → ℚ))
    (senders receivers : List ℕ) (e : ℕ) : Fin H → ℚ :=
  fun h => ∑ d, (keys.getD (senders.getD e 0) 0) h d *
    (queries.getD (receivers.getD e 0) 0) h d

/-- Stated per the claim (C1): the maximum attention score among the edges
received by node `n`, per head (the per-segment max subtracted by the
segment softmax). -/
def attnReceivedMax {H D : ℕ} (keys queries : List (Fin H → Fin D → ℚ))
    (senders receivers : List ℕ) (numEdges n : ℕ) (h : Fin H) : ℚ :=
  ((((List.range numEdges).filter fun e => receivers.getD e 0 == n).map
    fun e => attnLogit keys queries senders receivers e h).max?).getD 0

/-- Stated per the claim (C1): the attention weight of edge `e` for head `h`:
the segment softmax of the scores, grouped by receiver (exponential of the
max-shifted score, divided by the sum of the exponentials over all edges
with the same receiver). -/
def attnWeight {H D : ℕ} (ex : ℚ → ℚ)
    (keys queries : List (Fin H → Fin D → ℚ)) (senders receivers : List ℕ)
    (numEdges e : ℕ) (h : Fin H) : ℚ :=
  let n := receivers.getD e 0
  let m := attnReceivedMax keys queries senders receivers numEdges n h
  ex (attnLogit keys queries senders receivers e h - m) /
    (((List.range numEdges).filter fun e2 => receivers.getD e2 0 == n).map
      fun e2 => ex (attnLogit keys queries senders receivers e2 h - m)).sum

/-- Stated per the claim (C1): the attended output of node `n` for head `h`
and feature `d`: the sum, over the edges received by `n`, of the sender
node's value weighted by the edge's normalized attention weight. -/
def attnOut {H D : ℕ} (ex : ℚ → ℚ)
    (values keys queries : List (Fin H → Fin D → ℚ))
    (senders receivers : List ℕ) (numEdges n : ℕ) (h : Fin H) (d : Fin D) :
    ℚ :=
  (((List.range numEdges).filter fun e => receivers.getD e 0 == n).map
    fun e => attnWeight ex keys queries senders receivers numEdges e h *
      (values.getD (senders.getD e 0) 0) h d).sum

/-- The per-edge attention-logit list built by `SelfAttention._build`: for
each edge, the elementwise product of the broadcast sender key and broadcast
receiver query, summed over the last axis.  Equal (definitionally) to the
`attention_weights_logits` intermediate of `selfAttention`. -/
def attnLogitsList {H D : ℕ} (kk q : List (Fin H → Fin D → ℚ))
    (S R : List ℕ) : List (Fin H → ℚ) :=
  List.zipWith (fun kr qr h => ∑ d, kr h d * qr h d)
    (S.map fun s => kk.getD s 0) (R.map fun s => q.getD s 0)

/-! Basic facts about the segmented-reduction primitives. -/

theorem length_unsortedSegmentSum [AddCommMonoid α] (data : List α)
    (ids : List ℕ) (k : ℕ) : (unsortedSegmentSum data ids k).length = k := by
  simp [unsortedSegmentSum]

theorem getD_unsortedSegmentSum [AddCommMonoid α] (data : List α)
    (ids : List ℕ) (k n : ℕ) (hn : n < k) :
    (unsortedSegmentSum data ids k).getD n 0 = (segRows data ids n).sum := by
  rw [List.getD_eq_getElem _ _ (by simpa [unsortedSegmentSum] using hn)]
  simp [unsortedSegmentSum]

theorem length_unsortedSegmentMax (data : List (ι → ℚ)) (ids : List ℕ)
    (k : ℕ) : (unsortedSegmentMax data ids k).length = k := by
  simp [unsortedSegmentMax]

theorem getD_unsortedSegmentMax (data : List (ι → ℚ)) (ids : List ℕ)
    (k n : ℕ) (hn : n < k) :
    (unsortedSegmentMax data ids k).getD n 0 =
      (rowsMax (segRows data ids n)).getD 0 := by
  rw [List.getD_eq_getElem _ _ (by simpa [unsortedSegmentMax] using hn)]
  simp [unsortedSegmentMax]

theorem segRows_eq_nil (data : List α) (ids : List ℕ) (s : ℕ)
    (h : ∀ x ∈ ids, x ≠ s) : segRows data ids s = [] := by
  unfold segRows
  rw [List.filter_eq_nil_iff.2, List.map_nil]
  intro p hp
  have h2 := (List.of_mem_zip hp).2
  simpa using h p.2 h2

theorem segRows_cons (x : α) (xs : List α) (a : ℕ) (as : List ℕ) (s : ℕ) :
    segRows (x :: xs) (a :: as) s =
      if a = s then x :: segRows xs as s else segRows xs as s := by
  by_cases h : a = s <;> simp [segRows, List.filter_cons, h]

theorem segRows_eq_map_filter_range (data : List α) (ids : List ℕ) (s : ℕ)
    (d : α) (hl : data.length = ids.length) :
    segRows data ids s =
      ((List.range data.length).filter fun i => ids.getD i 0 == s).map
        fun i => data.getD i d := by
  induction data generalizing ids with
  | nil => simp [segRows]
  | cons x xs ih =>
    cases ids with
    | nil => simp at hl
    | cons a as =>
      have hl' : xs.length = as.length := by simpa using hl
      rw [segRows_cons, List.length_cons, List.range_succ_eq_map,
        List.filter_cons]
      simp only [List.getD_cons_zero, List.filter_map]
      have hcomp : ((fun i => (a :: as).getD i 0 == s) ∘ Nat.succ) =
          fun i => as.getD i 0 == s := by
        funext i; simp
      rw [hcomp]
      by_cases has : a = s
      · simp only [has, beq_self_eq_true, if_true, if_pos, List.map_cons,
          List.map_map, List.getD_cons_zero]
        rw [ih as hl']
        congr 1
      · have hbeq : (a == s) = false := by simpa using has
        simp only [has, hbeq, Bool.false_eq_true, if_false, List.map_map]
        rw [ih as hl']
        congr 1

/-- Summing a list of feature rows and then evaluating at a component equals
summing the component values. -/
theorem sumRows_apply [AddCommMonoid α] (l : List (ι → α)) (x : ι) :
    l.sum x = (l.map fun f => f x).sum := by
  induction l with
  | nil => rfl
  | cons f fs ih => simp [ih]

/-- Nonempty elementwise row maxima evaluate componentwise: if `rowsMax`
returns a row, that row's value at a component is the maximum of the
component values. -/
theorem rowsMax_apply_eq (l : List (ι → ℚ)) (m : ι → ℚ)
    (hm : rowsMax l = some m) (h : ι) :
    ((l.map fun r => r h).max?) = some (m h) := by
  induction l generalizing m with
  | nil => simp [rowsMax] at hm
  | cons x xs ih =>
    cases xs with
    | nil =>
      simp only [rowsMax, Option.elim, Option.some.injEq] at hm
      simp [List.max?_cons, ← hm]
    | cons y ys =>
      have hm' : rowsMax (y :: ys) =
          some ((rowsMax ys).elim y (rowMax y)) := rfl
      have hx := ih ((rowsMax ys).elim y (rowMax y)) hm'
      have hmeq : m = rowMax x ((rowsMax ys).elim y (rowMax y)) := by
        rw [rowsMax, hm'] at hm
        simpa using hm.symm
      rw [List.map_cons, List.max?_cons, hx]
      simp [hmeq, rowMax]

/-- Componentwise evaluation of the elementwise maximum of a nonempty list
of rows. -/
theorem rowsMax_getD_apply (l : List (ι → ℚ)) (hl : l ≠ []) (h : ι) :
    ((rowsMax l).getD 0) h = ((l.map fun r => r h).max?).getD 0 := by
  cases l with
  | nil => simp at hl
  | cons x xs =>
    rw [rowsMax_apply_eq (x :: xs) ((rowsMax xs).elim x (rowMax x)) rfl h]
    rfl

theorem segRows_length_le (data : List α) (ids : List ℕ) (s : ℕ) :
    (segRows data ids s).length ≤ data.length := by
  simp only [segRows, List.length_map]
  calc ((data.zip ids).filter fun p => p.2 == s).length
      ≤ (data.zip ids).length := List.length_filter_le _ _
    _ ≤ data.length := by simp [List.length_zip]

theorem segRows_ne_nil (data : List α) (ids : List ℕ) (s i : ℕ)
    (hi : i < data.length) (hil : i < ids.length) (hs : ids.getD i 0 = s) :
    segRows data ids s ≠ [] := by
  intro hcontra
  unfold segRows at hcontra
  rw [List.map_eq_nil_iff, List.filter_eq_nil_iff] at hcontra
  have hz : i < (data.zip ids).length := by
    simp only [List.length_zip]
    omega
  have hzi : (data.zip ids)[i] = (data[i], ids[i]) := List.getElem_zip
  have hmem : (data[i], ids[i]) ∈ data.zip ids := by
    rw [← hzi]
    exact List.getElem_mem hz
  have hids : ids[i] = s := by
    rw [← List.getD_eq_getElem ids 0 hil, hs]
  apply hcontra _ hmem
  simp [hids]

theorem rowsMax_of_ne_nil (l : List (ι → ℚ)) (hl : l ≠ []) :
    ∃ m, rowsMax l = some m := by
  cases l with
  | nil => simp at hl
  | cons x xs => exact ⟨_, rfl⟩

theorem unsortedSegmentSoftmax_eq_zipWith (ex : ℚ → ℚ) (data : List (ι → ℚ))
    (ids : List ℕ) (k : ℕ) :
    unsortedSegmentSoftmax ex data ids k =
      List.zipWith (fun r m h => r h / m h) (softmaxExpRows ex data ids k)
        (ids.map fun s =>
          (unsortedSegmentSum (softmaxExpRows ex data ids k) ids k).getD
            s 0) := rfl

theorem softmaxExpRows_getD (ex : ℚ → ℚ) (data : List (ι → ℚ))
    (ids : List ℕ) (k i : ℕ) (hi : i < data.length) (hil : i < ids.length) :
    (softmaxExpRows ex data ids k).getD i 0 =
      fun h => ex (data.getD i 0 h -
        (unsortedSegmentMax data ids k).getD (ids.getD i 0) 0 h) := by
  have hlen : i < (softmaxExpRows ex data ids k).length := by
    simp only [softmaxExpRows, List.length_map, List.length_zipWith,
      List.length_map]
    omega
  rw [List.getD_eq_getElem _ _ hlen]
  simp only [softmaxExpRows, List.getElem_map, List.getElem_zipWith]
  rw [List.getD_eq_getElem data _ hi, List.getD_eq_getElem ids _ hil]

theorem unsortedSegmentSoftmax_getD (ex : ℚ → ℚ) (data : List (ι → ℚ))
    (ids : List ℕ) (k i : ℕ) (hi : i < data.length) (hil : i < ids.length) :
    (unsortedSegmentSoftmax ex data ids k).getD i 0 =
      fun h => (softmaxExpRows ex data ids k).getD i 0 h /
        (unsortedSegmentSum (softmaxExpRows ex data ids k) ids k).getD
          (ids.getD i 0) 0 h := by
  have hexp : i < (softmaxExpRows ex data ids k).length := by
    simp only [softmaxExpRows, List.length_map, List.length_zipWith,
      List.length_map]
    omega
  have hlen : i < (List.zipWith (fun (r m : ι → ℚ) h => r h / m h)
      (softmaxExpRows ex data ids k)
      (ids.map fun s =>
        (unsortedSegmentSum (softmaxExpRows ex data ids k) ids k).getD
          s 0)).length := by
    simp only [List.length_zipWith, List.length_map]
    omega
  rw [unsortedSegmentSoftmax_eq_zipWith, List.getD_eq_getElem _ _ hlen]
  simp only [List.getElem_zipWith, List.getElem_map]
  rw [List.getD_eq_getElem _ _ hexp, List.getD_eq_getElem ids _ hil]

/-- C3: for every input to SelfAttention, every node with zero incoming
edges (no edge whose receiver is that node) has an all-zero row in the
output node tensor, regardless of that node's own value, key and query
inputs. -/
theorem selfAttention_isolated_node_zero {H D : ℕ} (ex : ℚ → ℚ)
    (v kk q : List (Fin H → Fin D → ℚ)) (g : GraphsTuple E N G) (n : ℕ)
    (hn : n < g.n_node.sum) (hrecv : ∀ r ∈ g.receivers, r ≠ n) :
    (selfAttention ex v kk q g).nodes.getD n 0 = 0 := by
  show (unsortedSegmentSum _ g.receivers g.n_node.sum).getD n 0 = 0
  rw [getD_unsortedSegmentSum _ _ _ _ hn, segRows_eq_nil _ _ _ hrecv]
  rfl

/-- Witness for C3: a 2-node graph whose single edge is received by node 0;
node 1 receives nothing and its output row is zero. -/
theorem selfAttention_isolated_node_zero_witness :
    1 < ([2] : List ℕ).sum ∧ (∀ r ∈ [0], r ≠ 1) ∧
    (selfAttention (fun x => x)
        [fun _ _ => 2, fun _ _ => 3] [fun _ _ => 1, fun _ _ => 1]
        [fun (_ : Fin 1) (_ : Fin 1) => (1 : ℚ), fun _ _ => 1]
        (⟨[0, 0], [0], [0], [1], [0], [2], [1]⟩ :
          GraphsTuple ℤ ℤ ℤ)).nodes.getD 1 0 = 0 :=
  ⟨by decide, by decide,
    selfAttention_isolated_node_zero _ _ _ _ _ _ (by decide) (by decide)⟩

theorem rowsMax_map_shift (l : List (ι → ℚ)) (c : ℚ) :
    rowsMax (l.map fun r h => r h + c) =
      (rowsMax l).map fun r h => r h + c := by
  induction l with
  | nil => rfl
  | cons x xs ih =>
    simp only [List.map_cons, rowsMax, ih]
    cases rowsMax xs with
    | none => rfl
    | some m =>
      simp only [Option.map_some', Option.elim, Option.some.injEq]
      funext h
      simp only [rowMax]
      exact max_add_add_right (x h) (m h) c

theorem shiftedRows_getD (data : List (ι → ℚ)) (ids : List ℕ) (s j : ℕ)
    (c : ℚ) (hj : j < data.length) (hjl : j < ids.length) :
    ((data.zip ids).map fun p =>
        if p.2 = s then (fun h : ι => p.1 h + c) else p.1).getD j 0 =
      if ids.getD j 0 = s then (fun h : ι => data.getD j 0 h + c)
      else data.getD j 0 := by
  have hlen : j < (((data.zip ids)).map fun p =>
      if p.2 = s then (fun h : ι => p.1 h + c) else p.1).length := by
    simp only [List.length_map, List.length_zip]
    omega
  rw [List.getD_eq_getElem _ _ hlen]
  simp only [List.getElem_map, List.getElem_zip]
  rw [List.getD_eq_getElem data _ hj, List.getD_eq_getElem ids _ hjl]

/-- C2: the output of the segment softmax is invariant under adding a
constant to all rows of one segment (the per-segment max is subtracted
before exponentiation and the result is divided by the per-segment sum of
exponentials), and a single segment containing logits `[0, 0, 0]` produces
the output `[1/3, 1/3, 1/3]`. -/
theorem segmentSoftmax_shift_invariant_and_uniform (ex : ℚ → ℚ)
    (hex : ex 0 ≠ 0) :
    (∀ (ι : Type) (data : List (ι → ℚ)) (ids : List ℕ) (k s i : ℕ) (c : ℚ),
      data.length = ids.length → (∀ x ∈ ids, x < k) → s < k →
      i < data.length → ids.getD i 0 = s →
      (unsortedSegmentSoftmax ex
          ((data.zip ids).map fun p =>
            if p.2 = s then (fun h => p.1 h + c) else p.1) ids k).getD i 0 =
        (unsortedSegmentSoftmax ex data ids k).getD i 0) ∧
    unsortedSegmentSoftmax ex
        [(fun _ => 0 : Fin 1 → ℚ), fun _ => 0, fun _ => 0] [0, 0, 0] 1 =
      [(fun _ => 1/3 : Fin 1 → ℚ), fun _ => 1/3, fun _ => 1/3] := by
  constructor
  · intro ι data ids k s i c hl hbound hsk hi his
    set d' := (data.zip ids).map fun p =>
      if p.2 = s then (fun h => p.1 h + c) else p.1 with hd'
    have hd'len : d'.length = data.length := by
      simp only [hd', List.length_map, List.length_zip]
      omega
    have hil : i < ids.length := hl ▸ hi
    have hd'l : d'.length = ids.length := by rw [hd'len, hl]
    have hne : segRows data ids s ≠ [] := segRows_ne_nil data ids s i hi hil his
    obtain ⟨m, hm⟩ := rowsMax_of_ne_nil _ hne
    have hget : ∀ j, j < data.length → j < ids.length → d'.getD j 0 =
        if ids.getD j 0 = s then (fun h => data.getD j 0 h + c)
        else data.getD j 0 := fun j hj hjl =>
      shiftedRows_getD data ids s j c hj hjl
    have hsegRows : segRows d' ids s =
        (segRows data ids s).map fun r h => r h + c := by
      rw [segRows_eq_map_filter_range d' ids s 0 hd'l,
        segRows_eq_map_filter_range data ids s 0 hl, hd'len, List.map_map]
      refine List.map_congr_left ?_
      intro a ha
      have hmem := List.mem_filter.1 ha
      have harange : a < data.length := List.mem_range.1 hmem.1
      have haid : ids.getD a 0 = s := by simpa using hmem.2
      simp only [Function.comp_apply, hget a harange (hl ▸ harange), haid,
        if_true, if_pos]
    have hmax' : (unsortedSegmentMax d' ids k).getD s 0 =
        fun h => m h + c := by
      rw [getD_unsortedSegmentMax _ _ _ _ hsk, hsegRows, rowsMax_map_shift, hm]
      rfl
    have hmax : (unsortedSegmentMax data ids k).getD s 0 = m := by
      rw [getD_unsortedSegmentMax _ _ _ _ hsk, hm]
      rfl
    have hkey : ∀ j, j < data.length → ids.getD j 0 = s →
        (softmaxExpRows ex d' ids k).getD j 0 =
          (softmaxExpRows ex data ids k).getD j 0 := by
      intro j hj hjs
      have hjl : j < ids.length := hl ▸ hj
      rw [softmaxExpRows_getD ex d' ids k j (hd'len ▸ hj) hjl,
        softmaxExpRows_getD ex data ids k j hj hjl, hjs, hmax', hmax,
        hget j hj hjl, if_pos hjs]
      funext h
      congr 1
      ring
    have hexplen' : (softmaxExpRows ex d' ids k).length = data.length := by
      simp only [softmaxExpRows, List.length_map, List.length_zipWith]
      omega
    have hexplen : (softmaxExpRows ex data ids k).length = data.length := by
      simp only [softmaxExpRows, List.length_map, List.length_zipWith]
      omega
    have hsum : (unsortedSegmentSum (softmaxExpRows ex d' ids k) ids k).getD
        s 0 =
        (unsortedSegmentSum (softmaxExpRows ex data ids k) ids k).getD
          s 0 := by
      rw [getD_unsortedSegmentSum _ _ _ _ hsk,
        getD_unsortedSegmentSum _ _ _ _ hsk]
      congr 1
      rw [segRows_eq_map_filter_range _ ids s 0 (by rw [hexplen', hl]),
        segRows_eq_map_filter_range _ ids s 0 (by rw [hexplen, hl]),
        hexplen', hexplen]
      refine List.map_congr_left ?_
      intro a ha
      have hmem := List.mem_filter.1 ha
      have harange : a < data.length := List.mem_range.1 hmem.1
      have haid : ids.getD a 0 = s := by simpa using hmem.2
      exact hkey a harange haid
    rw [unsortedSegmentSoftmax_getD ex d' ids k i (hd'len ▸ hi) hil,
      unsortedSegmentSoftmax_getD ex data ids k i hi hil, his, hsum,
      hkey i hi his]
  · have hden : ex 0 + (ex 0 + ex 0) ≠ 0 := by
      intro hcontra
      apply hex
      linarith
    simp only [unsortedSegmentSoftmax, unsortedSegmentMax, unsortedSegmentSum,
      segRows, softmaxExpRows]
    norm_num [List.range_succ, List.filter, rowsMax, rowMax]
    all_goals funext h
    all_goals try simp only [max_self, sub_zero]
    all_goals rw [div_eq_div_iff hden (by norm_num : (3 : ℚ) ≠ 0)]
    all_goals ring

/-- Witness for C2 at the exponential-like function constantly 1, with the
shift-invariance conjunct instantiated on three rows in one segment shifted
by 5. -/
theorem segmentSoftmax_shift_invariant_and_uniform_witness :
    ((fun _ : ℚ => (1 : ℚ)) 0 ≠ 0) ∧
    (unsortedSegmentSoftmax (fun _ => 1)
        (([(fun _ => 0 : Fin 1 → ℚ), fun _ => 0, fun _ => 0].zip
            [0, 0, 0]).map fun p =>
          if p.2 = 0 then (fun h => p.1 h + 5) else p.1) [0, 0, 0] 1).getD
        0 0 =
      (unsortedSegmentSoftmax (fun _ => 1)
        [(fun _ => 0 : Fin 1 → ℚ), fun _ => 0, fun _ => 0]
        [0, 0, 0] 1).getD 0 0 ∧
    unsortedSegmentSoftmax (fun _ => 1)
        [(fun _ => 0 : Fin 1 → ℚ), fun _ => 0, fun _ => 0] [0, 0, 0] 1 =
      [(fun _ => 1/3 : Fin 1 → ℚ), fun _ => 1/3, fun _ => 1/3] :=
  ⟨by norm_num,
   (segmentSoftmax_shift_invariant_and_uniform (fun _ => 1) (by norm_num)).1
     (Fin 1) _ _ 1 0 0 5 rfl (by decide) (by decide) (by decide) rfl,
   (segmentSoftmax_shift_invariant_and_uniform (fun _ => 1) (by norm_num)).2⟩

theorem length_attnLogitsList {H D : ℕ} (kk q : List (Fin H → Fin D → ℚ))
    (S R : List ℕ) :
    (attnLogitsList kk q S R).length = min S.length R.length := by
  simp [attnLogitsList]

theorem attnLogitsList_getD {H D : ℕ} (kk q : List (Fin H → Fin D → ℚ))
    (S R : List ℕ) (e : ℕ) (heS : e < S.length) (heR : e < R.length) :
    (attnLogitsList kk q S R).getD e 0 = attnLogit kk q S R e := by
  have hlen : e < (attnLogitsList kk q S R).length := by
    rw [length_attnLogitsList]
    omega
  rw [List.getD_eq_getElem _ _ hlen]
  simp only [attnLogitsList, List.getElem_zipWith, List.getElem_map]
  unfold attnLogit
  rw [List.getD_eq_getElem S _ heS, List.getD_eq_getElem R _ heR]

theorem attention_segRows_map {H D : ℕ} (kk q : List (Fin H → Fin D → ℚ))
    (S R : List ℕ) (n : ℕ) (hsr : S.length = R.length) (h2 : Fin H) :
    (segRows (attnLogitsList kk q S R) R n).map (fun r => r h2) =
      ((List.range R.length).filter fun e2 => R.getD e2 0 == n).map
        fun e2 => attnLogit kk q S R e2 h2 := by
  have hlen : (attnLogitsList kk q S R).length = R.length := by
    rw [length_attnLogitsList, hsr, min_self]
  rw [segRows_eq_map_filter_range _ R n 0 (by rw [hlen]), hlen, List.map_map]
  refine List.map_congr_left ?_
  intro e2 he2
  have hmem := List.mem_filter.1 he2
  have he2r : e2 < R.length := List.mem_range.1 hmem.1
  have he2s : e2 < S.length := hsr ▸ he2r
  simp only [Function.comp_apply, attnLogitsList_getD kk q S R e2 he2s he2r]

theorem attention_segmax_apply {H D : ℕ} (kk q : List (Fin H → Fin D → ℚ))
    (S R : List ℕ) (k n e : ℕ) (hsr : S.length = R.length) (hn : n < k)
    (heR : e < R.length) (hRe : R.getD e 0 = n) (h2 : Fin H) :
    (unsortedSegmentMax (attnLogitsList kk q S R) R k).getD n 0 h2 =
      attnReceivedMax kk q S R R.length n h2 := by
  have hlen : (attnLogitsList kk q S R).length = R.length := by
    rw [length_attnLogitsList, hsr, min_self]
  have hne : segRows (attnLogitsList kk q S R) R n ≠ [] :=
    segRows_ne_nil _ R n e (by omega) heR hRe
  rw [getD_unsortedSegmentMax _ _ _ _ hn, rowsMax_getD_apply _ hne h2,
    attention_segRows_map kk q S R n hsr h2]
  rfl

theorem attention_expRow_apply {H D : ℕ} (ex : ℚ → ℚ)
    (kk q : List (Fin H → Fin D → ℚ)) (S R : List ℕ) (k n e : ℕ)
    (hsr : S.length = R.length) (hn : n < k) (heR : e < R.length)
    (hRe : R.getD e 0 = n) (h2 : Fin H) :
    (softmaxExpRows ex (attnLogitsList kk q S R) R k).getD e 0 h2 =
      ex (attnLogit kk q S R e h2 -
        attnReceivedMax kk q S R R.length n h2) := by
  have hlen : (attnLogitsList kk q S R).length = R.length := by
    rw [length_attnLogitsList, hsr, min_self]
  have hrow := softmaxExpRows_getD ex (attnLogitsList kk q S R) R k e
    (by omega) heR
  rw [attnLogitsList_getD kk q S R e (hsr ▸ heR) heR, hRe] at hrow
  simp only [hrow]
  rw [attention_segmax_apply kk q S R k n e hsr hn heR hRe h2]

theorem attention_weight_apply {H D : ℕ} (ex : ℚ → ℚ)
    (kk q : List (Fin H → Fin D → ℚ)) (S R : List ℕ) (k n e : ℕ)
    (hsr : S.length = R.length) (hn : n < k) (heR : e < R.length)
    (hRe : R.getD e 0 = n) (h2 : Fin H) :
    (unsortedSegmentSoftmax ex (attnLogitsList kk q S R) R k).getD e 0 h2 =
      attnWeight ex kk q S R R.length e h2 := by
  have hlen : (attnLogitsList kk q S R).length = R.length := by
    rw [length_attnLogitsList, hsr, min_self]
  have hexplen : (softmaxExpRows ex (attnLogitsList kk q S R) R k).length =
      R.length := by
    simp only [softmaxExpRows, List.length_map, List.length_zipWith, hlen]
    omega
  have hrow := unsortedSegmentSoftmax_getD ex (attnLogitsList kk q S R) R k e
    (by omega) heR
  have hden : (unsortedSegmentSum
      (softmaxExpRows ex (attnLogitsList kk q S R) R k) R k).getD
        (R.getD e 0) 0 h2 =
      (((List.range R.length).filter fun e2 => R.getD e2 0 == n).map
        fun e2 => ex (attnLogit kk q S R e2 h2 -
          attnReceivedMax kk q S R R.length n h2)).sum := by
    rw [hRe, getD_unsortedSegmentSum _ _ _ _ hn, sumRows_apply,
      segRows_eq_map_filter_range _ R n 0 (by rw [hexplen]), hexplen,
      List.map_map]
    congr 1
    refine List.map_congr_left ?_
    intro e2 he2
    have hmem := List.mem_filter.1 he2
    have he2r : e2 < R.length := List.mem_range.1 hmem.1
    have he2id : R.getD e2 0 = n := by simpa using hmem.2
    simp only [Function.comp_apply]
    exact attention_expRow_apply ex kk q S R k n e2 hsr hn he2r he2id h2
  simp only [hrow]
  rw [hden, attention_expRow_apply ex kk q S R k n e hsr hn heR hRe h2]
  simp only [attnWeight, hRe]

/-- C1: for every input to SelfAttention, the output feature of node `n`
(per head and feature dimension) is the segmented sum, over the edges whose
receiver is `n`, of the sender node's value weighted by the segment softmax
(grouped by receivers) of the per-edge scores, each score being the dot
product over the last axis of the sender's key and the receiver's query. -/
theorem selfAttention_computes_attention {H D : ℕ} (ex : ℚ → ℚ)
    (v kk q : List (Fin H → Fin D → ℚ)) (g : GraphsTuple E N G)
    (hsr : g.senders.length = g.receivers.length) (n : ℕ)
    (hn : n < g.n_node.sum) (h : Fin H) (d : Fin D) :
    ((selfAttention ex v kk q g).nodes.getD n 0) h d =
      attnOut ex v kk q g.senders g.receivers g.receivers.length n h d := by
  have hout : (selfAttention ex v kk q g).nodes =
      unsortedSegmentSum
        (List.zipWith (fun vr w h2 d2 => vr h2 d2 * w h2)
          (g.senders.map fun s => v.getD s 0)
          (unsortedSegmentSoftmax ex
            (attnLogitsList kk q g.senders g.receivers) g.receivers
            g.n_node.sum))
        g.receivers g.n_node.sum := rfl
  set S := g.senders with hS
  set R := g.receivers with hR
  set k := g.n_node.sum with hk
  set normalized := unsortedSegmentSoftmax ex (attnLogitsList kk q S R) R k
    with hnormalized
  set attended := List.zipWith (fun vr w h2 d2 => vr h2 d2 * w h2)
    (S.map fun s => v.getD s 0) normalized with hattended
  have hnormlen : normalized.length = R.length := by
    rw [hnormalized, unsortedSegmentSoftmax_eq_zipWith]
    simp only [List.length_zipWith, List.length_map, softmaxExpRows,
      length_attnLogitsList, hsr]
    omega
  have hattlen : attended.length = R.length := by
    rw [hattended]
    simp only [List.length_zipWith, List.length_map, hnormlen, hsr, min_self]
  rw [hout, getD_unsortedSegmentSum _ _ _ _ hn, sumRows_apply, sumRows_apply,
    List.map_map,
    segRows_eq_map_filter_range attended R n 0 (by rw [hattlen]), hattlen,
    List.map_map]
  unfold attnOut
  refine congrArg List.sum ?_
  refine List.map_congr_left ?_
  intro e he
  have hmem := List.mem_filter.1 he
  have heR : e < R.length := List.mem_range.1 hmem.1
  have heS : e < S.length := hsr ▸ heR
  have hRe : R.getD e 0 = n := by simpa using hmem.2
  have hatt : attended.getD e 0 =
      fun h2 d2 => (v.getD (S.getD e 0) 0) h2 d2 * normalized.getD e 0 h2 := by
    have hlen : e < attended.length := by omega
    rw [List.getD_eq_getElem _ _ hlen]
    simp only [hattended, List.getElem_zipWith, List.getElem_map]
    rw [List.getD_eq_getElem S _ heS, List.getD_eq_getElem normalized _
      (by omega)]
  simp only [Function.comp_apply, hatt]
  rw [hnormalized, attention_weight_apply ex kk q S R k n e hsr hn heR hRe h]
  ring

/-- Witness for C1 on a 2-node graph with two edges received by node 0. -/
theorem selfAttention_computes_attention_witness :
    ([0, 1] : List ℕ).length = ([0, 0] : List ℕ).length ∧
    0 < ([2] : List ℕ).sum ∧
    ((selfAttention (fun x => x + 1)
        [fun _ _ => 2, fun _ _ => 4] [fun _ _ => 1, fun _ _ => 3]
        [fun (_ : Fin 1) (_ : Fin 1) => (1 : ℚ), fun _ _ => 1]
        (⟨[0, 0], [0, 0], [0, 0], [0, 1], [0], [2], [2]⟩ :
          GraphsTuple ℤ ℤ ℤ)).nodes.getD 0 0) 0 0 =
      attnOut (fun x => x + 1)
        [fun _ _ => 2, fun _ _ => 4] [fun _ _ => 1, fun _ _ => 3]
        [fun (_ : Fin 1) (_ : Fin 1) => (1 : ℚ), fun _ _ => 1]
        [0, 1] [0, 0] 2 0 0 0 :=
  ⟨rfl, by decide,
    selfAttention_computes_attention (fun x => x + 1)
      [fun _ _ => 2, fun _ _ => 4] [fun _ _ => 1, fun _ _ => 3]
      [fun _ _ => 1, fun _ _ => 1]
      (⟨[0, 0], [0, 0], [0, 0], [0, 1], [0], [2], [2]⟩ :
        GraphsTuple ℤ ℤ ℤ) rfl 0 (by decide) 0 0⟩

/-- C10: for every input, the GraphsTuple returned by SelfAttention is the
input attention graph with only the nodes field replaced: its edges, globals,
senders, receivers, n_node and n_edge fields are the attention graph's
original values, so the intermediate per-edge attention logits, normalized
weights and weighted values never appear in the returned edges field. -/
theorem selfAttention_only_updates_nodes {H D : ℕ} (ex : ℚ → ℚ)
    (v kk q : List (Fin H → Fin D → ℚ)) (g : GraphsTuple E N G) :
    (selfAttention ex v kk q g).edges = g.edges ∧
    (selfAttention ex v kk q g).globals = g.globals ∧
    (selfAttention ex v kk q g).senders = g.senders ∧
    (selfAttention ex v kk q g).receivers = g.receivers ∧
    (selfAttention ex v kk q g).n_node = g.n_node ∧
    (selfAttention ex v kk q g).n_edge = g.n_edge :=
  ⟨rfl, rfl, rfl, rfl, rfl, rfl⟩

/-- C4: every composite architecture of the module (GraphNetwork,
GraphIndependent, InteractionNetwork, RelationNetwork, DeepSets, CommNet,
SelfAttention) returns a graph with exactly the input's n_node, n_edge,
senders and receivers arrays, and only the feature fields the architecture
documents as updated differ from the input's (InteractionNetwork keeps
globals; RelationNetwork keeps edges and nodes; DeepSets keeps edges;
CommNet keeps edges and globals; SelfAttention keeps edges and globals). -/
theorem composite_architectures_preserve_shape
    {E N G E' N' G' N'' : Type} {H D : ℕ} [AddCommMonoid E]
    [AddCommMonoid E'] [AddCommMonoid N] [AddCommMonoid N'] [Zero N'']
    [Zero G] :
    (∀ (eo : Option EdgeBlockOptArg) (no : Option NodeBlockOptArg)
       (go : Option GlobalBlockOptArg) (φe : EdgeIn E N G → E')
       (φn : NodeIn E' N G → N') (φg : GlobalIn E' N' G → G')
       (g : GraphsTuple E N G),
       connectivityUnchanged (graphNetwork eo no go φe φn φg g) g) ∧
    (∀ (φe : E → E') (φn : N → N') (φg : G → G') (g : GraphsTuple E N G),
       connectivityUnchanged (graphIndependent φe φn φg g) g) ∧
    (∀ (φe : EdgeIn E N G → E') (φn : NodeIn E' N G → N')
       (g : GraphsTuple E N G),
       connectivityUnchanged (interactionNetwork φe φn g) g ∧
       (interactionNetwork φe φn g).globals = g.globals) ∧
    (∀ (φe : EdgeIn E N G → E') (φg : GlobalIn E' N G → G')
       (g : GraphsTuple E N G),
       connectivityUnchanged (relationNetwork φe φg g) g ∧
       (relationNetwork φe φg g).edges = g.edges ∧
       (relationNetwork φe φg g).nodes = g.nodes) ∧
    (∀ (φn : NodeIn E N G → N') (φg : GlobalIn E N' G → G')
       (g : GraphsTuple E N G),
       connectivityUnchanged (deepSets φn φg g) g ∧
       (deepSets φn φg g).edges = g.edges) ∧
    (∀ (φe : EdgeIn E N G → E') (φenc : NodeIn E' N G → N')
       (φn : NodeIn E' N' G → N'') (g : GraphsTuple E N G),
       connectivityUnchanged (commNet φe φenc φn g) g ∧
       (commNet φe φenc φn g).edges = g.edges ∧
       (commNet φe φenc φn g).globals = g.globals) ∧
    (∀ (ex : ℚ → ℚ) (v kk q : List (Fin H → Fin D → ℚ))
       (g : GraphsTuple E N G),
       connectivityUnchanged (selfAttention ex v kk q g) g ∧
       (selfAttention ex v kk q g).edges = g.edges ∧
       (selfAttention ex v kk q g).globals = g.globals) :=
  ⟨fun _ _ _ _ _ _ _ => ⟨rfl, rfl, rfl, rfl⟩,
   fun _ _ _ _ => ⟨rfl, rfl, rfl, rfl⟩,
   fun _ _ _ => ⟨⟨rfl, rfl, rfl, rfl⟩, rfl⟩,
   fun _ _ _ => ⟨⟨rfl, rfl, rfl, rfl⟩, rfl, rfl⟩,
   fun _ _ _ => ⟨⟨rfl, rfl, rfl, rfl⟩, rfl⟩,
   fun _ _ _ _ => ⟨⟨rfl, rfl, rfl, rfl⟩, rfl, rfl⟩,
   fun _ _ _ _ _ => ⟨⟨rfl, rfl, rfl, rfl⟩, rfl, rfl⟩⟩

/-- C6 (counterexample): with all three block option dictionaries left
unspecified, the NodeBlock of a GraphNetwork has its `use_sent_edges` flag
set to false, so not every `use_*` flag is true. -/
theorem graphNetwork_default_use_sent_edges_false :
    (makeDefaultNodeBlockOpt none).use_sent_edges = false := rfl

/-- C6 (amended): when GraphNetwork is constructed with all three block
option dictionaries unspecified, every `use_*` flag of its EdgeBlock,
NodeBlock and GlobalBlock is true except the NodeBlock's `use_sent_edges`,
which is false. -/
theorem graphNetwork_default_flags :
    makeDefaultEdgeBlockOpt none =
      { use_edges := true, use_receiver_nodes := true,
        use_sender_nodes := true, use_globals := true } ∧
    makeDefaultNodeBlockOpt none =
      { use_received_edges := true, use_sent_edges := false,
        use_nodes := true, use_globals := true } ∧
    makeDefaultGlobalBlockOpt none =
      { use_edges := true, use_nodes := true, use_globals := true } :=
  ⟨rfl, rfl, rfl⟩

/-- C9: constructing EdgeGAT with an edge block option dictionary that sets
`use_sender_nodes` to false fails at construction time (the constructor
returns an error and no module value is produced, so no graph can be
processed). -/
theorem edgeGAT_init_rejects_no_sender_nodes (eo : EdgeBlockOptArg)
    (go : Option GlobalBlockOptArg) (h : eo.use_sender_nodes = some false) :
    edgeGATInit (some eo) go =
      Except.error "EdgeGAT does not make sense without using sender nodes" := by
  simp [edgeGATInit, makeDefaultEdgeBlockOpt, h]

/-- Witness for C9 at a concrete option dictionary. -/
theorem edgeGAT_init_rejects_no_sender_nodes_witness :
    ({ use_sender_nodes := some false } : EdgeBlockOptArg).use_sender_nodes
        = some false ∧
    edgeGATInit (some { use_sender_nodes := some false }) none =
      Except.error "EdgeGAT does not make sense without using sender nodes" :=
  ⟨rfl, edgeGAT_init_rejects_no_sender_nodes { use_sender_nodes := some false }
    none rfl⟩

/-- C8: RelationNetwork returns the input graph with only the globals field
replaced by the globals computed by its GlobalBlock (edges only) applied
after its EdgeBlock (sender and receiver nodes, no input edges, no globals);
the edges and nodes of the result equal the input's, so the internally
computed per-edge features are discarded from the output. -/
theorem relationNetwork_spec [Zero E] [AddCommMonoid E'] [AddCommMonoid N]
    [Zero G] (φe : EdgeIn E N G → E') (φg : GlobalIn E' N G → G')
    (g : GraphsTuple E N G) :
    (relationNetwork φe φg g).edges = g.edges ∧
    (relationNetwork φe φg g).nodes = g.nodes ∧
    connectivityUnchanged (relationNetwork φe φg g) g ∧
    (relationNetwork φe φg g).globals =
      (globalBlock { use_edges := true, use_nodes := false,
                     use_globals := false } φg
        (edgeBlock { use_edges := false, use_receiver_nodes := true,
                     use_sender_nodes := true, use_globals := false } φe
          g)).globals :=
  ⟨rfl, rfl, ⟨rfl, rfl, rfl, rfl⟩, rfl⟩

/-- C7 (counterexample): on a one-node graph with a self-loop, with an edge
model returning 0 and a node model reading the node's own feature,
InteractionNetwork does not equal the network described by the claim (whose
NodeBlock would receive only the received-edges aggregation): the NodeBlock's
`use_nodes` input is enabled, so the node's own feature reaches the node
model. -/
theorem interactionNetwork_not_received_edges_only :
    (interactionNetwork (fun _ => (0 : ℤ)) (fun ni => ni.node.getD 0)
        ⟨[5], [0], [0], [0], [0], [1], [1]⟩).nodes ≠
    (interactionNetworkClaim (fun _ => (0 : ℤ)) (fun ni => ni.node.getD 0)
        ⟨[5], [0], [0], [0], [0], [1], [1]⟩).nodes := by
  decide

/-- C7 (amended): InteractionNetwork applies an EdgeBlock with globals
disabled (edges, receiver nodes and sender nodes enabled), then a NodeBlock
whose enabled inputs are the received-edges aggregation and the node's own
features (`use_nodes` stays at its constructor default of true; sent edges
and globals are disabled), and returns the NodeBlock's output; the globals
field is never read (replacing it does not affect the result except for
passing through the replacement) and never updated. -/
theorem interactionNetwork_spec [Zero E] [AddCommMonoid E'] [Zero N] [Zero G]
    (φe : EdgeIn E N G → E') (φn : NodeIn E' N G → N')
    (g : GraphsTuple E N G) :
    interactionNetwork φe φn g =
      nodeBlock { use_received_edges := true, use_sent_edges := false,
                  use_nodes := true, use_globals := false } φn
        (edgeBlock { use_edges := true, use_receiver_nodes := true,
                     use_sender_nodes := true, use_globals := false } φe g) ∧
    (interactionNetwork φe φn g).globals = g.globals ∧
    (∀ gl' : List G,
      interactionNetwork φe φn (g.replaceGlobals gl') =
        (interactionNetwork φe φn g).replaceGlobals gl') :=
  ⟨rfl, rfl, fun _ => rfl⟩

/-! Batch-independence infrastructure: appending two disjoint graphs (the
second one's ids shifted) makes every primitive compute the concatenation of
its per-graph results. -/

theorem segRows_append_of_ne (d1 d2 : List α) (ids1 ids2 : List ℕ) (s : ℕ)
    (hl : d1.length = ids1.length) (hs : ∀ x ∈ ids2, x ≠ s) :
    segRows (d1 ++ d2) (ids1 ++ ids2) s = segRows d1 ids1 s := by
  unfold segRows
  rw [List.zip_append hl, List.filter_append]
  have hnil : (d2.zip ids2).filter (fun p => p.2 == s) = [] := by
    rw [List.filter_eq_nil_iff]
    intro p hp
    have h2 := (List.of_mem_zip hp).2
    simpa using hs p.2 h2
  rw [hnil, List.append_nil]

theorem segRows_append_shift (d1 d2 : List α) (ids1 ids2 : List ℕ)
    (k1 t : ℕ) (hl : d1.length = ids1.length) (h1 : ∀ x ∈ ids1, x < k1) :
    segRows (d1 ++ d2) (ids1 ++ ids2.map fun x => k1 + x) (k1 + t) =
      segRows d2 ids2 t := by
  unfold segRows
  rw [List.zip_append hl, List.filter_append]
  have hleft : (d1.zip ids1).filter (fun p => p.2 == k1 + t) = [] := by
    rw [List.filter_eq_nil_iff]
    intro p hp
    have h2 := (List.of_mem_zip hp).2
    have hlt := h1 p.2 h2
    simp only [beq_iff_eq]
    omega
  rw [hleft, List.nil_append, List.zip_map_right, List.filter_map]
  have hpred : ((fun p : α × ℕ => p.2 == k1 + t) ∘
      Prod.map id fun x => k1 + x) = fun p : α × ℕ => p.2 == t := by
    funext p
    by_cases h : p.2 = t
    · simp [h, Prod.map]
    · have hne : ¬(k1 + p.2 = k1 + t) := by omega
      simp [h, hne, Prod.map]
  rw [hpred, List.map_map]
  refine List.map_congr_left ?_
  intro p _
  rfl

theorem segMap_append (f : List α → β) (d1 d2 : List α) (ids1 ids2 : List ℕ)
    (k1 k2 : ℕ) (hl : d1.length = ids1.length)
    (h1 : ∀ x ∈ ids1, x < k1) :
    (List.range (k1 + k2)).map
        (fun s => f (segRows (d1 ++ d2)
          (ids1 ++ ids2.map fun x => k1 + x) s)) =
      (List.range k1).map (fun s => f (segRows d1 ids1 s)) ++
        (List.range k2).map (fun s => f (segRows d2 ids2 s)) := by
  rw [List.range_add, List.map_append, List.map_map]
  congr 1
  · refine List.map_congr_left ?_
    intro s hs
    have hsk : s < k1 := List.mem_range.1 hs
    rw [segRows_append_of_ne d1 d2 ids1 _ s hl ?_]
    intro x hx
    obtain ⟨y, _, rfl⟩ := List.mem_map.1 hx
    omega
  · refine List.map_congr_left ?_
    intro t _
    simp only [Function.comp_apply]
    rw [segRows_append_shift d1 d2 ids1 ids2 k1 t hl h1]

theorem unsortedSegmentSum_append [AddCommMonoid α] (d1 d2 : List α)
    (ids1 ids2 : List ℕ) (k1 k2 : ℕ) (hl : d1.length = ids1.length)
    (h1 : ∀ x ∈ ids1, x < k1) :
    unsortedSegmentSum (d1 ++ d2) (ids1 ++ ids2.map fun x => k1 + x)
        (k1 + k2) =
      unsortedSegmentSum d1 ids1 k1 ++ unsortedSegmentSum d2 ids2 k2 :=
  segMap_append List.sum d1 d2 ids1 ids2 k1 k2 hl h1

theorem unsortedSegmentMax_append (d1 d2 : List (ι → ℚ))
    (ids1 ids2 : List ℕ) (k1 k2 : ℕ) (hl : d1.length = ids1.length)
    (h1 : ∀ x ∈ ids1, x < k1) :
    unsortedSegmentMax (d1 ++ d2) (ids1 ++ ids2.map fun x => k1 + x)
        (k1 + k2) =
      unsortedSegmentMax d1 ids1 k1 ++ unsortedSegmentMax d2 ids2 k2 :=
  segMap_append (fun l => (rowsMax l).getD 0) d1 d2 ids1 ids2 k1 k2 hl h1

theorem map_getD_append (l1 l2 : List β) (ids1 ids2 : List ℕ) (z : β)
    (k1 : ℕ) (hk : l1.length = k1) (h1 : ∀ x ∈ ids1, x < k1) :
    ((ids1 ++ ids2.map fun x => k1 + x).map fun s => (l1 ++ l2).getD s z) =
      ids1.map (fun s => l1.getD s z) ++ ids2.map fun s => l2.getD s z := by
  rw [List.map_append, List.map_map]
  congr 1
  · refine List.map_congr_left ?_
    intro s hs
    exact List.getD_append _ _ _ _ (by rw [hk]; exact h1 s hs)
  · refine List.map_congr_left ?_
    intro s _
    simp only [Function.comp_apply]
    rw [List.getD_append_right _ _ _ _ (by omega)]
    congr 1
    omega

theorem length_softmaxExpRows (ex : ℚ → ℚ) (data : List (ι → ℚ))
    (ids : List ℕ) (k : ℕ) :
    (softmaxExpRows ex data ids k).length = min data.length ids.length := by
  simp [softmaxExpRows]

theorem softmaxExpRows_append (ex : ℚ → ℚ) (d1 d2 : List (ι → ℚ))
    (ids1 ids2 : List ℕ) (k1 k2 : ℕ) (hl : d1.length = ids1.length)
    (h1 : ∀ x ∈ ids1, x < k1) :
    softmaxExpRows ex (d1 ++ d2) (ids1 ++ ids2.map fun x => k1 + x)
        (k1 + k2) =
      softmaxExpRows ex d1 ids1 k1 ++ softmaxExpRows ex d2 ids2 k2 := by
  unfold softmaxExpRows
  rw [unsortedSegmentMax_append d1 d2 ids1 ids2 k1 k2 hl h1,
    map_getD_append _ _ ids1 ids2 0 k1
      (length_unsortedSegmentMax d1 ids1 k1) h1,
    List.zipWith_append _ _ _ _ _ (by rw [hl, List.length_map]),
    List.map_append]

theorem unsortedSegmentSoftmax_append (ex : ℚ → ℚ) (d1 d2 : List (ι → ℚ))
    (ids1 ids2 : List ℕ) (k1 k2 : ℕ) (hl : d1.length = ids1.length)
    (h1 : ∀ x ∈ ids1, x < k1) :
    unsortedSegmentSoftmax ex (d1 ++ d2)
        (ids1 ++ ids2.map fun x => k1 + x) (k1 + k2) =
      unsortedSegmentSoftmax ex d1 ids1 k1 ++
        unsortedSegmentSoftmax ex d2 ids2 k2 := by
  have hexplen : (softmaxExpRows ex d1 ids1 k1).length = ids1.length := by
    rw [length_softmaxExpRows, hl, min_self]
  rw [unsortedSegmentSoftmax_eq_zipWith, unsortedSegmentSoftmax_eq_zipWith,
    unsortedSegmentSoftmax_eq_zipWith,
    softmaxExpRows_append ex d1 d2 ids1 ids2 k1 k2 hl h1,
    unsortedSegmentSum_append _ _ ids1 ids2 k1 k2 hexplen h1,
    map_getD_append _ _ ids1 ids2 0 k1
      (length_unsortedSegmentSum _ ids1 k1) h1,
    List.zipWith_append _ _ _ _ _ (by rw [hexplen, List.length_map])]

theorem graphIdsOf_append (c1 c2 : List ℕ) :
    graphIdsOf (c1 ++ c2) =
      graphIdsOf c1 ++ (graphIdsOf c2).map fun x => c1.length + x := by
  induction c1 with
  | nil => simp [graphIdsOf]
  | cons c rest ih =>
    have hcons : (c :: rest) ++ c2 = c :: (rest ++ c2) := rfl
    rw [hcons]
    simp only [graphIdsOf, ih, List.map_append, List.map_map,
      List.length_cons, List.append_assoc]
    have hfun : ((fun x => 1 + x) ∘ fun x => rest.length + x) =
        fun x => rest.length + 1 + x := by
      funext x
      simp only [Function.comp_apply]
      omega
    rw [hfun]

theorem graphIdsOf_lt (c : List ℕ) (x : ℕ) (hx : x ∈ graphIdsOf c) :
    x < c.length := by
  induction c generalizing x with
  | nil => simp [graphIdsOf] at hx
  | cons c0 rest ih =>
    simp only [graphIdsOf, List.mem_append, List.mem_replicate,
      List.mem_map] at hx
    rcases hx with ⟨_, rfl⟩ | ⟨y, hy, rfl⟩
    · simp
    · have := ih y hy
      simp only [List.length_cons]
      omega

theorem length_graphIdsOf (c : List ℕ) : (graphIdsOf c).length = c.sum := by
  induction c with
  | nil => rfl
  | cons c0 rest ih => simp [graphIdsOf, ih]

theorem flatMap_replicate_append (gl1 gl2 : List α) (c1 c2 : List ℕ)
    (h : gl1.length = c1.length) :
    (((gl1 ++ gl2).zip (c1 ++ c2)).flatMap fun p =>
        List.replicate p.2 p.1) =
      ((gl1.zip c1).flatMap fun p => List.replicate p.2 p.1) ++
        ((gl2.zip c2).flatMap fun p => List.replicate p.2 p.1) := by
  rw [List.zip_append h, List.flatMap_append]

theorem length_flatMap_replicate (gl : List α) (c : List ℕ)
    (h : gl.length = c.length) :
    ((gl.zip c).flatMap fun p => List.replicate p.2 p.1).length = c.sum := by
  induction gl generalizing c with
  | nil =>
    cases c with
    | nil => rfl
    | cons c0 cs => simp at h
  | cons g0 gs ih =>
    cases c with
    | nil => simp at h
    | cons c0 cs =>
      have h' : gs.length = cs.length := by simpa using h
      simp [ih cs h']

theorem batchGraph_nodes (g1 g2 : GraphsTuple E N G) :
    (batchGraph g1 g2).nodes = g1.nodes ++ g2.nodes := rfl

theorem batchGraph_edges (g1 g2 : GraphsTuple E N G) :
    (batchGraph g1 g2).edges = g1.edges ++ g2.edges := rfl

theorem batchGraph_receivers (g1 g2 : GraphsTuple E N G) :
    (batchGraph g1 g2).receivers =
      g1.receivers ++ g2.receivers.map fun x => g1.nodes.length + x := rfl

theorem batchGraph_senders (g1 g2 : GraphsTuple E N G) :
    (batchGraph g1 g2).senders =
      g1.senders ++ g2.senders.map fun x => g1.nodes.length + x := rfl

theorem batchGraph_globals (g1 g2 : GraphsTuple E N G) :
    (batchGraph g1 g2).globals = g1.globals ++ g2.globals := rfl

theorem batchGraph_n_node (g1 g2 : GraphsTuple E N G) :
    (batchGraph g1 g2).n_node = g1.n_node ++ g2.n_node := rfl

theorem batchGraph_n_edge (g1 g2 : GraphsTuple E N G) :
    (batchGraph g1 g2).n_edge = g1.n_edge ++ g2.n_edge := rfl

theorem edgeBlock_edges [Zero E] [Zero N] [Zero G] (opt : EdgeBlockOpt)
    (φe : EdgeIn E N G → E') (g : GraphsTuple E N G) :
    (edgeBlock opt φe g).edges =
      (List.range g.receivers.length).map fun i =>
        φe ⟨optionalInput opt.use_edges (g.edges.getD i 0),
            optionalInput opt.use_receiver_nodes
              (g.nodes.getD (g.receivers.getD i 0) 0),
            optionalInput opt.use_sender_nodes
              (g.nodes.getD (g.senders.getD i 0) 0),
            optionalInput opt.use_globals
              ((broadcastGlobalsToEdges g).getD i 0)⟩ := rfl

theorem edgeBlock_batch [Zero E] [Zero N] [Zero G] (opt : EdgeBlockOpt)
    (φe : EdgeIn E N G → E') (g1 g2 : GraphsTuple E N G)
    (hw1 : WF g1) (hw2 : WF g2) :
    edgeBlock opt φe (batchGraph g1 g2) =
      batchGraph (edgeBlock opt φe g1) (edgeBlock opt φe g2) := by
  obtain ⟨hrl1, hsl1, hrb1, hsb1, hnn1, hne1, hgn1, hge1⟩ := hw1
  obtain ⟨hrl2, hsl2, hrb2, hsb2, hnn2, hne2, hgn2, hge2⟩ := hw2
  have hbge : broadcastGlobalsToEdges (batchGraph g1 g2) =
      broadcastGlobalsToEdges g1 ++ broadcastGlobalsToEdges g2 :=
    flatMap_replicate_append g1.globals g2.globals g1.n_edge g2.n_edge
      hge1.symm
  have hbgelen : (broadcastGlobalsToEdges g1).length = g1.edges.length := by
    unfold broadcastGlobalsToEdges
    rw [length_flatMap_replicate _ _ hge1.symm, hne1]
  refine GraphsTuple.ext rfl ?_ rfl rfl rfl rfl rfl
  rw [batchGraph_edges, edgeBlock_edges, edgeBlock_edges, edgeBlock_edges]
  simp only [batchGraph_nodes, batchGraph_edges, batchGraph_receivers,
    batchGraph_senders, hbge]
  rw [show (g1.receivers ++ g2.receivers.map
      fun x => g1.nodes.length + x).length =
      g1.receivers.length + g2.receivers.length by simp]
  rw [List.range_add, List.map_append, List.map_map]
  congr 1
  · refine List.map_congr_left ?_
    intro i hi
    have hiR : i < g1.receivers.length := List.mem_range.1 hi
    have he : (g1.edges ++ g2.edges).getD i 0 = g1.edges.getD i 0 :=
      List.getD_append _ _ _ _ (by omega)
    have hr : (g1.receivers ++ g2.receivers.map
        fun x => g1.nodes.length + x).getD i 0 = g1.receivers.getD i 0 :=
      List.getD_append _ _ _ _ hiR
    have hrmem : g1.receivers.getD i 0 ∈ g1.receivers := by
      rw [List.getD_eq_getElem _ _ hiR]
      exact List.getElem_mem _
    have hrn : (g1.nodes ++ g2.nodes).getD (g1.receivers.getD i 0) 0 =
        g1.nodes.getD (g1.receivers.getD i 0) 0 :=
      List.getD_append _ _ _ _ (hrb1 _ hrmem)
    have hiS : i < g1.senders.length := by omega
    have hsd : (g1.senders ++ g2.senders.map
        fun x => g1.nodes.length + x).getD i 0 = g1.senders.getD i 0 :=
      List.getD_append _ _ _ _ hiS
    have hsmem : g1.senders.getD i 0 ∈ g1.senders := by
      rw [List.getD_eq_getElem _ _ hiS]
      exact List.getElem_mem _
    have hsn : (g1.nodes ++ g2.nodes).getD (g1.senders.getD i 0) 0 =
        g1.nodes.getD (g1.senders.getD i 0) 0 :=
      List.getD_append _ _ _ _ (hsb1 _ hsmem)
    have hg : (broadcastGlobalsToEdges g1 ++
        broadcastGlobalsToEdges g2).getD i 0 =
        (broadcastGlobalsToEdges g1).getD i 0 :=
      List.getD_append _ _ _ _ (by omega)
    rw [he, hr, hrn, hsd, hsn, hg]
  · refine List.map_congr_left ?_
    intro j hj
    have hjR : j < g2.receivers.length := List.mem_range.1 hj
    simp only [Function.comp_apply]
    have he : (g1.edges ++ g2.edges).getD (g1.receivers.length + j) 0 =
        g2.edges.getD j 0 := by
      rw [List.getD_append_right _ _ _ _ (by omega)]
      congr 1
      omega
    have hr : (g1.receivers ++ g2.receivers.map
        fun x => g1.nodes.length + x).getD (g1.receivers.length + j) 0 =
        g1.nodes.length + g2.receivers.getD j 0 := by
      rw [List.getD_append_right _ _ _ _ (by omega)]
      have hsub : g1.receivers.length + j - g1.receivers.length = j := by
        omega
      rw [hsub, List.getD_eq_getElem _ _ (by simpa using hjR),
        List.getElem_map, List.getD_eq_getElem _ _ hjR]
    have hrn : (g1.nodes ++ g2.nodes).getD
        (g1.nodes.length + g2.receivers.getD j 0) 0 =
        g2.nodes.getD (g2.receivers.getD j 0) 0 := by
      rw [List.getD_append_right _ _ _ _ (by omega)]
      congr 1
      omega
    have hjS : j < g2.senders.length := by omega
    have hsd : (g1.senders ++ g2.senders.map
        fun x => g1.nodes.length + x).getD (g1.receivers.length + j) 0 =
        g1.nodes.length + g2.senders.getD j 0 := by
      rw [show g1.receivers.length = g1.senders.length by omega,
        List.getD_append_right _ _ _ _ (by omega)]
      have hsub : g1.senders.length + j - g1.senders.length = j := by omega
      rw [hsub, List.getD_eq_getElem _ _ (by simpa using hjS),
        List.getElem_map, List.getD_eq_getElem _ _ hjS]
    have hsn : (g1.nodes ++ g2.nodes).getD
        (g1.nodes.length + g2.senders.getD j 0) 0 =
        g2.nodes.getD (g2.senders.getD j 0) 0 := by
      rw [List.getD_append_right _ _ _ _ (by omega)]
      congr 1
      omega
    have hg : (broadcastGlobalsToEdges g1 ++
        broadcastGlobalsToEdges g2).getD (g1.receivers.length + j) 0 =
        (broadcastGlobalsToEdges g2).getD j 0 := by
      rw [List.getD_append_right _ _ _ _ (by omega)]
      congr 1
      omega
    rw [he, hr, hrn, hsd, hsn, hg]

theorem nodeBlock_nodes [AddCommMonoid E] [Zero N] [Zero G]
    (opt : NodeBlockOpt) (φn : NodeIn E N G → N') (g : GraphsTuple E N G) :
    (nodeBlock opt φn g).nodes =
      (List.range g.nodes.length).map fun i =>
        φn ⟨optionalInput opt.use_received_edges
              ((unsortedSegmentSum g.edges g.receivers g.n_node.sum).getD
                i 0),
            optionalInput opt.use_sent_edges
              ((unsortedSegmentSum g.edges g.senders g.n_node.sum).getD i 0),
            optionalInput opt.use_nodes (g.nodes.getD i 0),
            optionalInput opt.use_globals
              ((broadcastGlobalsToNodes g).getD i 0)⟩ := rfl

theorem nodeBlock_batch [AddCommMonoid E] [Zero N] [Zero G]
    (opt : NodeBlockOpt) (φn : NodeIn E N G → N') (g1 g2 : GraphsTuple E N G)
    (hw1 : WF g1) (hw2 : WF g2) :
    nodeBlock opt φn (batchGraph g1 g2) =
      batchGraph (nodeBlock opt φn g1) (nodeBlock opt φn g2) := by
  obtain ⟨hrl1, hsl1, hrb1, hsb1, hnn1, hne1, hgn1, hge1⟩ := hw1
  obtain ⟨hrl2, hsl2, hrb2, hsb2, hnn2, hne2, hgn2, hge2⟩ := hw2
  have hshift : (fun x => g1.nodes.length + x) =
      fun x => g1.n_node.sum + x := by rw [hnn1]
  have hrecvAgg : unsortedSegmentSum (g1.edges ++ g2.edges)
      (g1.receivers ++ g2.receivers.map fun x => g1.nodes.length + x)
      (g1.n_node.sum + g2.n_node.sum) =
      unsortedSegmentSum g1.edges g1.receivers g1.n_node.sum ++
        unsortedSegmentSum g2.edges g2.receivers g2.n_node.sum := by
    rw [hshift]
    exact unsortedSegmentSum_append _ _ _ _ _ _ hrl1.symm
      (fun x hx => by rw [hnn1]; exact hrb1 x hx)
  have hsentAgg : unsortedSegmentSum (g1.edges ++ g2.edges)
      (g1.senders ++ g2.senders.map fun x => g1.nodes.length + x)
      (g1.n_node.sum + g2.n_node.sum) =
      unsortedSegmentSum g1.edges g1.senders g1.n_node.sum ++
        unsortedSegmentSum g2.edges g2.senders g2.n_node.sum := by
    rw [hshift]
    exact unsortedSegmentSum_append _ _ _ _ _ _ hsl1.symm
      (fun x hx => by rw [hnn1]; exact hsb1 x hx)
  have hbgn : (((g1.globals ++ g2.globals).zip
      (g1.n_node ++ g2.n_node)).flatMap fun p => List.replicate p.2 p.1) =
      broadcastGlobalsToNodes g1 ++ broadcastGlobalsToNodes g2 := by
    rw [flatMap_replicate_append _ _ _ _ hgn1.symm]
    rfl
  have hbgnlen : (broadcastGlobalsToNodes g1).length = g1.nodes.length := by
    unfold broadcastGlobalsToNodes
    rw [length_flatMap_replicate _ _ hgn1.symm, hnn1]
  have hralen : (unsortedSegmentSum g1.edges g1.receivers
      g1.n_node.sum).length = g1.nodes.length := by
    rw [length_unsortedSegmentSum, hnn1]
  have hsalen : (unsortedSegmentSum g1.edges g1.senders
      g1.n_node.sum).length = g1.nodes.length := by
    rw [length_unsortedSegmentSum, hnn1]
  simp only [nodeBlock, batchGraph, GraphsTuple.replaceNodes,
    broadcastGlobalsToNodes, GraphsTuple.mk.injEq, List.length_append,
    List.sum_append, List.length_map, List.length_range, and_true, true_and,
    eq_self_iff_true]
  rw [hrecvAgg, hsentAgg, hbgn, List.range_add, List.map_append,
    List.map_map]
  congr 1
  · refine List.map_congr_left ?_
    intro i hi
    have hiN : i < g1.nodes.length := List.mem_range.1 hi
    have hra : (unsortedSegmentSum g1.edges g1.receivers g1.n_node.sum ++
        unsortedSegmentSum g2.edges g2.receivers g2.n_node.sum).getD i 0 =
        (unsortedSegmentSum g1.edges g1.receivers g1.n_node.sum).getD i 0 :=
      List.getD_append _ _ _ _ (by omega)
    have hsa : (unsortedSegmentSum g1.edges g1.senders g1.n_node.sum ++
        unsortedSegmentSum g2.edges g2.senders g2.n_node.sum).getD i 0 =
        (unsortedSegmentSum g1.edges g1.senders g1.n_node.sum).getD i 0 :=
      List.getD_append _ _ _ _ (by omega)
    have hnd : (g1.nodes ++ g2.nodes).getD i 0 = g1.nodes.getD i 0 :=
      List.getD_append _ _ _ _ hiN
    have hgb : (broadcastGlobalsToNodes g1 ++
        broadcastGlobalsToNodes g2).getD i 0 =
        (broadcastGlobalsToNodes g1).getD i 0 :=
      List.getD_append _ _ _ _ (by omega)
    rw [hnd, hra, hsa, hgb]
    rfl
  · refine List.map_congr_left ?_
    intro j hj
    have hjN : j < g2.nodes.length := List.mem_range.1 hj
    simp only [Function.comp_apply]
    have hra : (unsortedSegmentSum g1.edges g1.receivers g1.n_node.sum ++
        unsortedSegmentSum g2.edges g2.receivers g2.n_node.sum).getD
          (g1.nodes.length + j) 0 =
        (unsortedSegmentSum g2.edges g2.receivers g2.n_node.sum).getD
          j 0 := by
      rw [List.getD_append_right _ _ _ _ (by omega)]
      congr 1
      omega
    have hsa : (unsortedSegmentSum g1.edges g1.senders g1.n_node.sum ++
        unsortedSegmentSum g2.edges g2.senders g2.n_node.sum).getD
          (g1.nodes.length + j) 0 =
        (unsortedSegmentSum g2.edges g2.senders g2.n_node.sum).getD j 0 := by
      rw [List.getD_append_right _ _ _ _ (by omega)]
      congr 1
      omega
    have hnd : (g1.nodes ++ g2.nodes).getD (g1.nodes.length + j) 0 =
        g2.nodes.getD j 0 := by
      rw [List.getD_append_right _ _ _ _ (by omega)]
      congr 1
      omega
    have hgb : (broadcastGlobalsToNodes g1 ++
        broadcastGlobalsToNodes g2).getD (g1.nodes.length + j) 0 =
        (broadcastGlobalsToNodes g2).getD j 0 := by
      rw [List.getD_append_right _ _ _ _ (by omega)]
      congr 1
      omega
    rw [hnd, hra, hsa, hgb]
    rfl

theorem globalBlock_globals [AddCommMonoid E] [AddCommMonoid N] [Zero G]
    (opt : GlobalBlockOpt) (φg : GlobalIn E N G → G')
    (g : GraphsTuple E N G) :
    (globalBlock opt φg g).globals =
      (List.range g.globals.length).map fun i =>
        φg ⟨optionalInput opt.use_edges
              ((unsortedSegmentSum g.edges (graphIdsOf g.n_edge)
                g.n_edge.length).getD i 0),
            optionalInput opt.use_nodes
              ((unsortedSegmentSum g.nodes (graphIdsOf g.n_node)
                g.n_node.length).getD i 0),
            optionalInput opt.use_globals (g.globals.getD i 0)⟩ := rfl

theorem globalBlock_batch [AddCommMonoid E] [AddCommMonoid N] [Zero G]
    (opt : GlobalBlockOpt) (φg : GlobalIn E N G → G')
    (g1 g2 : GraphsTuple E N G) (hw1 : WF g1) (hw2 : WF g2) :
    globalBlock opt φg (batchGraph g1 g2) =
      batchGraph (globalBlock opt φg g1) (globalBlock opt φg g2) := by
  obtain ⟨hrl1, hsl1, hrb1, hsb1, hnn1, hne1, hgn1, hge1⟩ := hw1
  obtain ⟨hrl2, hsl2, hrb2, hsb2, hnn2, hne2, hgn2, hge2⟩ := hw2
  have heAgg : unsortedSegmentSum (g1.edges ++ g2.edges)
      (graphIdsOf (g1.n_edge ++ g2.n_edge))
      (g1.n_edge.length + g2.n_edge.length) =
      unsortedSegmentSum g1.edges (graphIdsOf g1.n_edge) g1.n_edge.length ++
        unsortedSegmentSum g2.edges (graphIdsOf g2.n_edge)
          g2.n_edge.length := by
    rw [graphIdsOf_append]
    exact unsortedSegmentSum_append _ _ _ _ _ _
      (by rw [length_graphIdsOf, hne1]) (fun x hx => graphIdsOf_lt _ x hx)
  have hnAgg : unsortedSegmentSum (g1.nodes ++ g2.nodes)
      (graphIdsOf (g1.n_node ++ g2.n_node))
      (g1.n_node.length + g2.n_node.length) =
      unsortedSegmentSum g1.nodes (graphIdsOf g1.n_node) g1.n_node.length ++
        unsortedSegmentSum g2.nodes (graphIdsOf g2.n_node)
          g2.n_node.length := by
    rw [graphIdsOf_append]
    exact unsortedSegmentSum_append _ _ _ _ _ _
      (by rw [length_graphIdsOf, hnn1]) (fun x hx => graphIdsOf_lt _ x hx)
  have healen : (unsortedSegmentSum g1.edges (graphIdsOf g1.n_edge)
      g1.n_edge.length).length = g1.globals.length := by
    rw [length_unsortedSegmentSum, hge1]
  have hnalen : (unsortedSegmentSum g1.nodes (graphIdsOf g1.n_node)
      g1.n_node.length).length = g1.globals.length := by
    rw [length_unsortedSegmentSum, hgn1]
  simp only [globalBlock, batchGraph, GraphsTuple.replaceGlobals,
    GraphsTuple.mk.injEq, List.length_append, and_true, true_and,
    eq_self_iff_true]
  rw [heAgg, hnAgg, List.range_add, List.map_append, List.map_map]
  congr 1
  · refine List.map_congr_left ?_
    intro i hi
    have hiG : i < g1.globals.length := List.mem_range.1 hi
    have hea : (unsortedSegmentSum g1.edges (graphIdsOf g1.n_edge)
        g1.n_edge.length ++
        unsortedSegmentSum g2.edges (graphIdsOf g2.n_edge)
          g2.n_edge.length).getD i 0 =
        (unsortedSegmentSum g1.edges (graphIdsOf g1.n_edge)
          g1.n_edge.length).getD i 0 :=
      List.getD_append _ _ _ _ (by omega)
    have hna : (unsortedSegmentSum g1.nodes (graphIdsOf g1.n_node)
        g1.n_node.length ++
        unsortedSegmentSum g2.nodes (graphIdsOf g2.n_node)
          g2.n_node.length).getD i 0 =
        (unsortedSegmentSum g1.nodes (graphIdsOf g1.n_node)
          g1.n_node.length).getD i 0 :=
      List.getD_append _ _ _ _ (by omega)
    have hgl : (g1.globals ++ g2.globals).getD i 0 = g1.globals.getD i 0 :=
      List.getD_append _ _ _ _ hiG
    rw [hea, hna, hgl]
  · refine List.map_congr_left ?_
    intro j hj
    have hjG : j < g2.globals.length := List.mem_range.1 hj
    simp only [Function.comp_apply]
    have hea : (unsortedSegmentSum g1.edges (graphIdsOf g1.n_edge)
        g1.n_edge.length ++
        unsortedSegmentSum g2.edges (graphIdsOf g2.n_edge)
          g2.n_edge.length).getD (g1.globals.length + j) 0 =
        (unsortedSegmentSum g2.edges (graphIdsOf g2.n_edge)
          g2.n_edge.length).getD j 0 := by
      rw [List.getD_append_right _ _ _ _ (by omega)]
      congr 1
      omega
    have hna : (unsortedSegmentSum g1.nodes (graphIdsOf g1.n_node)
        g1.n_node.length ++
        unsortedSegmentSum g2.nodes (graphIdsOf g2.n_node)
          g2.n_node.length).getD (g1.globals.length + j) 0 =
        (unsortedSegmentSum g2.nodes (graphIdsOf g2.n_node)
          g2.n_node.length).getD j 0 := by
      rw [List.getD_append_right _ _ _ _ (by omega)]
      congr 1
      omega
    have hgl : (g1.globals ++ g2.globals).getD (g1.globals.length + j) 0 =
        g2.globals.getD j 0 := by
      rw [List.getD_append_right _ _ _ _ (by omega)]
      congr 1
      omega
    rw [hea, hna, hgl]

theorem length_edgeBlock_edges [Zero E] [Zero N] [Zero G]
    (opt : EdgeBlockOpt) (φe : EdgeIn E N G → E') (g : GraphsTuple E N G) :
    (edgeBlock opt φe g).edges.length = g.receivers.length := by
  rw [edgeBlock_edges]
  simp

theorem length_nodeBlock_nodes [AddCommMonoid E] [Zero N] [Zero G]
    (opt : NodeBlockOpt) (φn : NodeIn E N G → N') (g : GraphsTuple E N G) :
    (nodeBlock opt φn g).nodes.length = g.nodes.length := by
  rw [nodeBlock_nodes]
  simp

theorem length_globalBlock_globals [AddCommMonoid E] [AddCommMonoid N]
    [Zero G] (opt : GlobalBlockOpt) (φg : GlobalIn E N G → G')
    (g : GraphsTuple E N G) :
    (globalBlock opt φg g).globals.length = g.globals.length := by
  rw [globalBlock_globals]
  simp

theorem WF_edgeBlock [Zero E] [Zero N] [Zero G] (opt : EdgeBlockOpt)
    (φe : EdgeIn E N G → E') (g : GraphsTuple E N G) (hw : WF g) :
    WF (edgeBlock opt φe g) := by
  obtain ⟨hrl, hsl, hrb, hsb, hnn, hne, hgn, hge⟩ := hw
  refine ⟨?_, ?_, hrb, hsb, hnn, ?_, hgn, hge⟩
  · rw [show (edgeBlock opt φe g).receivers = g.receivers from rfl,
      length_edgeBlock_edges]
  · rw [show (edgeBlock opt φe g).senders = g.senders from rfl,
      length_edgeBlock_edges]
    omega
  · rw [show (edgeBlock opt φe g).n_edge = g.n_edge from rfl,
      length_edgeBlock_edges]
    omega

theorem WF_nodeBlock [AddCommMonoid E] [Zero N] [Zero G]
    (opt : NodeBlockOpt) (φn : NodeIn E N G → N') (g : GraphsTuple E N G)
    (hw : WF g) : WF (nodeBlock opt φn g) := by
  obtain ⟨hrl, hsl, hrb, hsb, hnn, hne, hgn, hge⟩ := hw
  refine ⟨hrl, hsl, ?_, ?_, ?_, hne, hgn, hge⟩
  · rw [show (nodeBlock opt φn g).receivers = g.receivers from rfl]
    intro r hr
    rw [length_nodeBlock_nodes]
    exact hrb r hr
  · rw [show (nodeBlock opt φn g).senders = g.senders from rfl]
    intro s hs
    rw [length_nodeBlock_nodes]
    exact hsb s hs
  · rw [show (nodeBlock opt φn g).n_node = g.n_node from rfl,
      length_nodeBlock_nodes]
    omega

theorem WF_globalBlock [AddCommMonoid E] [AddCommMonoid N] [Zero G]
    (opt : GlobalBlockOpt) (φg : GlobalIn E N G → G')
    (g : GraphsTuple E N G) (hw : WF g) : WF (globalBlock opt φg g) := by
  obtain ⟨hrl, hsl, hrb, hsb, hnn, hne, hgn, hge⟩ := hw
  refine ⟨hrl, hsl, hrb, hsb, hnn, hne, ?_, ?_⟩
  · rw [show (globalBlock opt φg g).n_node = g.n_node from rfl,
      length_globalBlock_globals]
    omega
  · rw [show (globalBlock opt φg g).n_edge = g.n_edge from rfl,
      length_globalBlock_globals]
    omega

theorem replaceGlobals_batch (g1 g2 : GraphsTuple E N G)
    (X1 X2 : List G') :
    (batchGraph g1 g2).replaceGlobals (X1 ++ X2) =
      batchGraph (g1.replaceGlobals X1) (g2.replaceGlobals X2) := rfl

theorem replaceNodes_batch (g1 g2 : GraphsTuple E N G) (Y1 Y2 : List N')
    (hY : Y1.length = g1.nodes.length) :
    (batchGraph g1 g2).replaceNodes (Y1 ++ Y2) =
      batchGraph (g1.replaceNodes Y1) (g2.replaceNodes Y2) := by
  refine GraphsTuple.ext rfl rfl ?_ ?_ rfl rfl rfl
  · show g1.receivers ++ g2.receivers.map (fun x => g1.nodes.length + x) =
      g1.receivers ++ g2.receivers.map fun x => Y1.length + x
    rw [hY]
  · show g1.senders ++ g2.senders.map (fun x => g1.nodes.length + x) =
      g1.senders ++ g2.senders.map fun x => Y1.length + x
    rw [hY]

theorem graphNetwork_batch [Zero E] [AddCommMonoid E'] [Zero N]
    [AddCommMonoid N'] [Zero G] (eo : Option EdgeBlockOptArg)
    (no : Option NodeBlockOptArg) (go : Option GlobalBlockOptArg)
    (φe : EdgeIn E N G → E') (φn : NodeIn E' N G → N')
    (φg : GlobalIn E' N' G → G') (g1 g2 : GraphsTuple E N G)
    (hw1 : WF g1) (hw2 : WF g2) :
    graphNetwork eo no go φe φn φg (batchGraph g1 g2) =
      batchGraph (graphNetwork eo no go φe φn φg g1)
        (graphNetwork eo no go φe φn φg g2) := by
  unfold graphNetwork
  rw [edgeBlock_batch _ _ _ _ hw1 hw2,
    nodeBlock_batch _ _ _ _ (WF_edgeBlock _ _ _ hw1)
      (WF_edgeBlock _ _ _ hw2),
    globalBlock_batch _ _ _ _
      (WF_nodeBlock _ _ _ (WF_edgeBlock _ _ _ hw1))
      (WF_nodeBlock _ _ _ (WF_edgeBlock _ _ _ hw2))]

theorem graphIndependent_batch (φe : E → E') (φn : N → N') (φg : G → G')
    (g1 g2 : GraphsTuple E N G) :
    graphIndependent φe φn φg (batchGraph g1 g2) =
      batchGraph (graphIndependent φe φn φg g1)
        (graphIndependent φe φn φg g2) := by
  refine GraphsTuple.ext ?_ ?_ ?_ ?_ ?_ rfl rfl
  · show ((g1.nodes ++ g2.nodes).map φn) = g1.nodes.map φn ++ g2.nodes.map φn
    exact List.map_append φn _ _
  · show ((g1.edges ++ g2.edges).map φe) = g1.edges.map φe ++ g2.edges.map φe
    exact List.map_append φe _ _
  · show g1.receivers ++ g2.receivers.map (fun x => g1.nodes.length + x) =
      g1.receivers ++ g2.receivers.map fun x => (g1.nodes.map φn).length + x
    rw [List.length_map]
  · show g1.senders ++ g2.senders.map (fun x => g1.nodes.length + x) =
      g1.senders ++ g2.senders.map fun x => (g1.nodes.map φn).length + x
    rw [List.length_map]
  · show ((g1.globals ++ g2.globals).map φg) =
      g1.globals.map φg ++ g2.globals.map φg
    exact List.map_append φg _ _

theorem interactionNetwork_batch [Zero E] [AddCommMonoid E'] [Zero N]
    [Zero G] (φe : EdgeIn E N G → E') (φn : NodeIn E' N G → N')
    (g1 g2 : GraphsTuple E N G) (hw1 : WF g1) (hw2 : WF g2) :
    interactionNetwork φe φn (batchGraph g1 g2) =
      batchGraph (interactionNetwork φe φn g1)
        (interactionNetwork φe φn g2) := by
  unfold interactionNetwork
  rw [edgeBlock_batch _ _ _ _ hw1 hw2,
    nodeBlock_batch _ _ _ _ (WF_edgeBlock _ _ _ hw1)
      (WF_edgeBlock _ _ _ hw2)]

theorem relationNetwork_batch [Zero E] [AddCommMonoid E'] [AddCommMonoid N]
    [Zero G] (φe : EdgeIn E N G → E') (φg : GlobalIn E' N G → G')
    (g1 g2 : GraphsTuple E N G) (hw1 : WF g1) (hw2 : WF g2) :
    relationNetwork φe φg (batchGraph g1 g2) =
      batchGraph (relationNetwork φe φg g1) (relationNetwork φe φg g2) := by
  simp only [relationNetwork]
  rw [edgeBlock_batch _ _ _ _ hw1 hw2,
    globalBlock_batch _ _ _ _ (WF_edgeBlock _ _ _ hw1)
      (WF_edgeBlock _ _ _ hw2)]
  rfl

theorem deepSets_batch [AddCommMonoid E] [Zero N] [AddCommMonoid N']
    [Zero G] (φn : NodeIn E N G → N') (φg : GlobalIn E N' G → G')
    (g1 g2 : GraphsTuple E N G) (hw1 : WF g1) (hw2 : WF g2) :
    deepSets φn φg (batchGraph g1 g2) =
      batchGraph (deepSets φn φg g1) (deepSets φn φg g2) := by
  unfold deepSets
  rw [nodeBlock_batch _ _ _ _ hw1 hw2,
    globalBlock_batch _ _ _ _ (WF_nodeBlock _ _ _ hw1)
      (WF_nodeBlock _ _ _ hw2)]

theorem commNet_batch [Zero E] [AddCommMonoid E'] [Zero N] [Zero N']
    [Zero N''] [Zero G] (φe : EdgeIn E N G → E')
    (φenc : NodeIn E' N G → N') (φn : NodeIn E' N' G → N'')
    (g1 g2 : GraphsTuple E N G) (hw1 : WF g1) (hw2 : WF g2) :
    commNet φe φenc φn (batchGraph g1 g2) =
      batchGraph (commNet φe φenc φn g1) (commNet φe φenc φn g2) := by
  simp only [commNet]
  rw [edgeBlock_batch _ _ _ _ hw1 hw2,
    nodeBlock_batch _ _ _ _ (WF_edgeBlock _ _ _ hw1)
      (WF_edgeBlock _ _ _ hw2),
    nodeBlock_batch _ _ _ _
      (WF_nodeBlock _ _ _ (WF_edgeBlock _ _ _ hw1))
      (WF_nodeBlock _ _ _ (WF_edgeBlock _ _ _ hw2)),
    batchGraph_nodes,
    replaceNodes_batch _ _ _ _ (by
      rw [length_nodeBlock_nodes, length_nodeBlock_nodes]
      rfl)]

theorem selfAttention_nodes {H D : ℕ} (ex : ℚ → ℚ)
    (v kk q : List (Fin H → Fin D → ℚ)) (g : GraphsTuple E N G) :
    (selfAttention ex v kk q g).nodes =
      unsortedSegmentSum
        (List.zipWith (fun vr w h2 d2 => vr h2 d2 * w h2)
          (g.senders.map fun s => v.getD s 0)
          (unsortedSegmentSoftmax ex
            (attnLogitsList kk q g.senders g.receivers) g.receivers
            g.n_node.sum))
        g.receivers g.n_node.sum := rfl

theorem length_unsortedSegmentSoftmax (ex : ℚ → ℚ) (data : List (ι → ℚ))
    (ids : List ℕ) (k : ℕ) :
    (unsortedSegmentSoftmax ex data ids k).length =
      min data.length ids.length := by
  rw [unsortedSegmentSoftmax_eq_zipWith]
  simp only [List.length_zipWith, List.length_map, length_softmaxExpRows]
  omega

theorem attnLogitsList_append {H D : ℕ}
    (kk1 kk2 q1 q2 : List (Fin H → Fin D → ℚ)) (s1 s2 r1 r2 : List ℕ)
    (k1 : ℕ) (hkk : kk1.length = k1) (hq : q1.length = k1)
    (hs1 : ∀ x ∈ s1, x < k1) (hr1 : ∀ x ∈ r1, x < k1)
    (hsr : s1.length = r1.length) :
    attnLogitsList (kk1 ++ kk2) (q1 ++ q2)
        (s1 ++ s2.map fun x => k1 + x) (r1 ++ r2.map fun x => k1 + x) =
      attnLogitsList kk1 q1 s1 r1 ++ attnLogitsList kk2 q2 s2 r2 := by
  unfold attnLogitsList
  rw [map_getD_append kk1 kk2 s1 s2 0 k1 hkk hs1,
    map_getD_append q1 q2 r1 r2 0 k1 hq hr1,
    List.zipWith_append _ _ _ _ _ (by simp [hsr])]

theorem selfAttention_batch {H D : ℕ} (ex : ℚ → ℚ)
    (v1 kk1 q1 v2 kk2 q2 : List (Fin H → Fin D → ℚ))
    (g1 g2 : GraphsTuple E N G) (hw1 : WF g1) (hw2 : WF g2)
    (hv1 : v1.length = g1.nodes.length) (hk1 : kk1.length = g1.nodes.length)
    (hq1 : q1.length = g1.nodes.length) :
    selfAttention ex (v1 ++ v2) (kk1 ++ kk2) (q1 ++ q2)
        (batchGraph g1 g2) =
      batchGraph (selfAttention ex v1 kk1 q1 g1)
        (selfAttention ex v2 kk2 q2 g2) := by
  obtain ⟨hrl1, hsl1, hrb1, hsb1, hnn1, hne1, hgn1, hge1⟩ := hw1
  obtain ⟨hrl2, hsl2, hrb2, hsb2, hnn2, hne2, hgn2, hge2⟩ := hw2
  have hshift : (fun x => g1.nodes.length + x) =
      fun x => g1.n_node.sum + x := by rw [hnn1]
  have hsrlen : g1.senders.length = g1.receivers.length := by omega
  have hsalen1 : (selfAttention ex v1 kk1 q1 g1).nodes.length =
      g1.nodes.length := by
    rw [selfAttention_nodes, length_unsortedSegmentSum, hnn1]
  have hsv : ((g1.senders ++ g2.senders.map fun x =>
      g1.nodes.length + x).map fun s => (v1 ++ v2).getD s 0) =
      (g1.senders.map fun s => v1.getD s 0) ++
        g2.senders.map fun s => v2.getD s 0 :=
    map_getD_append v1 v2 g1.senders g2.senders 0 g1.nodes.length hv1 hsb1
  have hlogits : attnLogitsList (kk1 ++ kk2) (q1 ++ q2)
      (g1.senders ++ g2.senders.map fun x => g1.nodes.length + x)
      (g1.receivers ++ g2.receivers.map fun x => g1.nodes.length + x) =
      attnLogitsList kk1 q1 g1.senders g1.receivers ++
        attnLogitsList kk2 q2 g2.senders g2.receivers :=
    attnLogitsList_append kk1 kk2 q1 q2 g1.senders g2.senders g1.receivers
      g2.receivers g1.nodes.length hk1 hq1 hsb1 hrb1 hsrlen
  have hlog1len : (attnLogitsList kk1 q1 g1.senders g1.receivers).length =
      g1.receivers.length := by
    rw [length_attnLogitsList, hsrlen, min_self]
  have hnorm : unsortedSegmentSoftmax ex
      (attnLogitsList kk1 q1 g1.senders g1.receivers ++
        attnLogitsList kk2 q2 g2.senders g2.receivers)
      (g1.receivers ++ g2.receivers.map fun x => g1.nodes.length + x)
      ((g1.n_node ++ g2.n_node).sum) =
      unsortedSegmentSoftmax ex
        (attnLogitsList kk1 q1 g1.senders g1.receivers) g1.receivers
        g1.n_node.sum ++
      unsortedSegmentSoftmax ex
        (attnLogitsList kk2 q2 g2.senders g2.receivers) g2.receivers
        g2.n_node.sum := by
    rw [List.sum_append, hshift]
    exact unsortedSegmentSoftmax_append ex _ _ _ _ _ _ hlog1len
      (fun x hx => by rw [hnn1]; exact hrb1 x hx)
  have hnorm1len : (unsortedSegmentSoftmax ex
      (attnLogitsList kk1 q1 g1.senders g1.receivers) g1.receivers
      g1.n_node.sum).length = g1.receivers.length := by
    rw [length_unsortedSegmentSoftmax, hlog1len, min_self]
  have hatt : List.zipWith (fun vr w h2 d2 => vr h2 d2 * w h2)
      ((g1.senders.map fun s => v1.getD s 0) ++
        g2.senders.map fun s => v2.getD s 0)
      (unsortedSegmentSoftmax ex
        (attnLogitsList kk1 q1 g1.senders g1.receivers) g1.receivers
        g1.n_node.sum ++
      unsortedSegmentSoftmax ex
        (attnLogitsList kk2 q2 g2.senders g2.receivers) g2.receivers
        g2.n_node.sum) =
      List.zipWith (fun vr w h2 d2 => vr h2 d2 * w h2)
        (g1.senders.map fun s => v1.getD s 0)
        (unsortedSegmentSoftmax ex
          (attnLogitsList kk1 q1 g1.senders g1.receivers) g1.receivers
          g1.n_node.sum) ++
      List.zipWith (fun vr w h2 d2 => vr h2 d2 * w h2)
        (g2.senders.map fun s => v2.getD s 0)
        (unsortedSegmentSoftmax ex
          (attnLogitsList kk2 q2 g2.senders g2.receivers) g2.receivers
          g2.n_node.sum) :=
    List.zipWith_append _ _ _ _ _ (by rw [List.length_map, hnorm1len, hsrlen])
  have hatt1len : (List.zipWith (fun vr w h2 d2 => vr h2 d2 * w h2)
      (g1.senders.map fun s => v1.getD s 0)
      (unsortedSegmentSoftmax ex
        (attnLogitsList kk1 q1 g1.senders g1.receivers) g1.receivers
        g1.n_node.sum)).length = g1.receivers.length := by
    simp only [List.length_zipWith, List.length_map, hnorm1len, hsrlen,
      min_self]
  have hagg : unsortedSegmentSum
      (List.zipWith (fun vr w h2 d2 => vr h2 d2 * w h2)
        (g1.senders.map fun s => v1.getD s 0)
        (unsortedSegmentSoftmax ex
          (attnLogitsList kk1 q1 g1.senders g1.receivers) g1.receivers
          g1.n_node.sum) ++
      List.zipWith (fun vr w h2 d2 => vr h2 d2 * w h2)
        (g2.senders.map fun s => v2.getD s 0)
        (unsortedSegmentSoftmax ex
          (attnLogitsList kk2 q2 g2.senders g2.receivers) g2.receivers
          g2.n_node.sum))
      (g1.receivers ++ g2.receivers.map fun x => g1.nodes.length + x)
      ((g1.n_node ++ g2.n_node).sum) =
      unsortedSegmentSum
        (List.zipWith (fun vr w h2 d2 => vr h2 d2 * w h2)
          (g1.senders.map fun s => v1.getD s 0)
          (unsortedSegmentSoftmax ex
            (attnLogitsList kk1 q1 g1.senders g1.receivers) g1.receivers
            g1.n_node.sum))
        g1.receivers g1.n_node.sum ++
      unsortedSegmentSum
        (List.zipWith (fun vr w h2 d2 => vr h2 d2 * w h2)
          (g2.senders.map fun s => v2.getD s 0)
          (unsortedSegmentSoftmax ex
            (attnLogitsList kk2 q2 g2.senders g2.receivers) g2.receivers
            g2.n_node.sum))
        g2.receivers g2.n_node.sum := by
    rw [List.sum_append, hshift]
    exact unsortedSegmentSum_append _ _ _ _ _ _ hatt1len
      (fun x hx => by rw [hnn1]; exact hrb1 x hx)
  refine GraphsTuple.ext ?_ rfl ?_ ?_ rfl rfl rfl
  · rw [batchGraph_nodes, selfAttention_nodes, selfAttention_nodes,
      selfAttention_nodes]
    simp only [batchGraph_senders, batchGraph_receivers, batchGraph_n_node]
    rw [hsv, hlogits, hnorm, hatt, hagg]
  · show g1.receivers ++ g2.receivers.map (fun x => g1.nodes.length + x) =
      g1.receivers ++ g2.receivers.map fun x =>
        (selfAttention ex v1 kk1 q1 g1).nodes.length + x
    rw [hsalen1]
  · show g1.senders ++ g2.senders.map (fun x => g1.nodes.length + x) =
      g1.senders ++ g2.senders.map fun x =>
        (selfAttention ex v1 kk1 q1 g1).nodes.length + x
    rw [hsalen1]

/-- C5: every composite architecture of the module, run on the batched graph
containing two disjoint valid graphs (features concatenated, connectivity of
the second graph offset, partitions concatenated), produces exactly the
concatenation of its results on each graph alone: no aggregation or softmax
normalization mixes rows belonging to different graphs or different receiver
nodes. -/
theorem composite_architectures_batch_independent
    {E N G E' N' G' N'' : Type} {H D : ℕ} [AddCommMonoid E]
    [AddCommMonoid E'] [AddCommMonoid N] [AddCommMonoid N'] [Zero N'']
    [Zero G] :
    (∀ (eo : Option EdgeBlockOptArg) (no : Option NodeBlockOptArg)
       (go : Option GlobalBlockOptArg) (φe : EdgeIn E N G → E')
       (φn : NodeIn E' N G → N') (φg : GlobalIn E' N' G → G')
       (g1 g2 : GraphsTuple E N G), WF g1 → WF g2 →
       graphNetwork eo no go φe φn φg (batchGraph g1 g2) =
         batchGraph (graphNetwork eo no go φe φn φg g1)
           (graphNetwork eo no go φe φn φg g2)) ∧
    (∀ (φe : E → E') (φn : N → N') (φg : G → G')
       (g1 g2 : GraphsTuple E N G),
       graphIndependent φe φn φg (batchGraph g1 g2) =
         batchGraph (graphIndependent φe φn φg g1)
           (graphIndependent φe φn φg g2)) ∧
    (∀ (φe : EdgeIn E N G → E') (φn : NodeIn E' N G → N')
       (g1 g2 : GraphsTuple E N G), WF g1 → WF g2 →
       interactionNetwork φe φn (batchGraph g1 g2) =
         batchGraph (interactionNetwork φe φn g1)
           (interactionNetwork φe φn g2)) ∧
    (∀ (φe : EdgeIn E N G → E') (φg : GlobalIn E' N G → G')
       (g1 g2 : GraphsTuple E N G), WF g1 → WF g2 →
       relationNetwork φe φg (batchGraph g1 g2) =
         batchGraph (relationNetwork φe φg g1)
           (relationNetwork φe φg g2)) ∧
    (∀ (φn : NodeIn E N G → N') (φg : GlobalIn E N' G → G')
       (g1 g2 : GraphsTuple E N G), WF g1 → WF g2 →
       deepSets φn φg (batchGraph g1 g2) =
         batchGraph (deepSets φn φg g1) (deepSets φn φg g2)) ∧
    (∀ (φe : EdgeIn E N G → E') (φenc : NodeIn E' N G → N')
       (φn : NodeIn E' N' G → N'') (g1 g2 : GraphsTuple E N G),
       WF g1 → WF g2 →
       commNet φe φenc φn (batchGraph g1 g2) =
         batchGraph (commNet φe φenc φn g1) (commNet φe φenc φn g2)) ∧
    (∀ (ex : ℚ → ℚ) (v1 kk1 q1 v2 kk2 q2 : List (Fin H → Fin D → ℚ))
       (g1 g2 : GraphsTuple E N G), WF g1 → WF g2 →
       v1.length = g1.nodes.length → kk1.length = g1.nodes.length →
       q1.length = g1.nodes.length →
       selfAttention ex (v1 ++ v2) (kk1 ++ kk2) (q1 ++ q2)
           (batchGraph g1 g2) =
         batchGraph (selfAttention ex v1 kk1 q1 g1)
           (selfAttention ex v2 kk2 q2 g2)) :=
  ⟨fun eo no go φe φn φg g1 g2 hw1 hw2 =>
     graphNetwork_batch eo no go φe φn φg g1 g2 hw1 hw2,
   fun φe φn φg g1 g2 => graphIndependent_batch φe φn φg g1 g2,
   fun φe φn g1 g2 hw1 hw2 => interactionNetwork_batch φe φn g1 g2 hw1 hw2,
   fun φe φg g1 g2 hw1 hw2 => relationNetwork_batch φe φg g1 g2 hw1 hw2,
   fun φn φg g1 g2 hw1 hw2 => deepSets_batch φn φg g1 g2 hw1 hw2,
   fun φe φenc φn g1 g2 hw1 hw2 => commNet_batch φe φenc φn g1 g2 hw1 hw2,
   fun ex v1 kk1 q1 v2 kk2 q2 g1 g2 hw1 hw2 hv1 hk1 hq1 =>
     selfAttention_batch ex v1 kk1 q1 v2 kk2 q2 g1 g2 hw1 hw2 hv1 hk1 hq1⟩

/-- Witness for C5 on two concrete disjoint graphs, exercising the
GraphNetwork and SelfAttention conjuncts. -/
theorem composite_architectures_batch_independent_witness :
    WF (⟨[1], [10], [0], [0], [7], [1], [1]⟩ : GraphsTuple ℤ ℤ ℤ) ∧
    WF (⟨[2, 3], [20], [1], [0], [8], [2], [1]⟩ : GraphsTuple ℤ ℤ ℤ) ∧
    graphNetwork none none none
        (fun ei => ei.edge.getD 0 + ei.senderNode.getD 0)
        (fun ni => ni.receivedEdges.getD 0 + ni.node.getD 0 +
          ni.glob.getD 0)
        (fun gi => gi.edges.getD 0 + gi.glob.getD 0)
        (batchGraph (⟨[1], [10], [0], [0], [7], [1], [1]⟩ :
            GraphsTuple ℤ ℤ ℤ)
          ⟨[2, 3], [20], [1], [0], [8], [2], [1]⟩) =
      batchGraph
        (graphNetwork none none none
          (fun ei => ei.edge.getD 0 + ei.senderNode.getD 0)
          (fun ni => ni.receivedEdges.getD 0 + ni.node.getD 0 +
            ni.glob.getD 0)
          (fun gi => gi.edges.getD 0 + gi.glob.getD 0)
          ⟨[1], [10], [0], [0], [7], [1], [1]⟩)
        (graphNetwork none none none
          (fun ei => ei.edge.getD 0 + ei.senderNode.getD 0)
          (fun ni => ni.receivedEdges.getD 0 + ni.node.getD 0 +
            ni.glob.getD 0)
          (fun gi => gi.edges.getD 0 + gi.glob.getD 0)
          ⟨[2, 3], [20], [1], [0], [8], [2], [1]⟩) ∧
    selfAttention (fun x => x + 1)
        ([fun _ _ => 1] ++ [fun _ _ => 2, fun _ _ => 3])
        ([fun _ _ => 1] ++ [fun _ _ => 1, fun _ _ => 1])
        ([fun (_ : Fin 1) (_ : Fin 1) => (1 : ℚ)] ++
          [fun _ _ => 1, fun _ _ => 1])
        (batchGraph (⟨[1], [10], [0], [0], [7], [1], [1]⟩ :
            GraphsTuple ℤ ℤ ℤ)
          ⟨[2, 3], [20], [1], [0], [8], [2], [1]⟩) =
      batchGraph
        (selfAttention (fun x => x + 1) [fun _ _ => 1] [fun _ _ => 1]
          [fun (_ : Fin 1) (_ : Fin 1) => (1 : ℚ)]
          (⟨[1], [10], [0], [0], [7], [1], [1]⟩ : GraphsTuple ℤ ℤ ℤ))
        (selfAttention (fun x => x + 1) [fun _ _ => 2, fun _ _ => 3]
          [fun _ _ => 1, fun _ _ => 1] [fun _ _ => 1, fun _ _ => 1]
          ⟨[2, 3], [20], [1], [0], [8], [2], [1]⟩) :=
  ⟨by decide, by decide,
   (@composite_architectures_batch_independent ℤ ℤ ℤ ℤ ℤ ℤ ℤ 1 1
     _ _ _ _ _ _).1 none none none _ _ _ _ _ (by decide) (by decide),
   (@composite_architectures_batch_independent ℤ ℤ ℤ ℤ ℤ ℤ ℤ 1 1
     _ _ _ _ _ _).2.2.2.2.2.2 (fun x => x + 1)
     _ _ _ _ _ _ _ _ (by decide) (by decide) rfl rfl rfl⟩

end GraphNets
